import Mathlib

/-!
# Producer / consumer simulation: bounded buffer and LED service mailbox

A shallow embedding of Src/main.c.  The C globals (buffer, in, out,
count), the five SYS/BIOS semaphores and the environment pointer of
ledSrvTask are the fields of one State; every C function becomes a function
on State.  A call that would wait forever on Semaphore_pend
(BIOS_WAIT_FOREVER) with nobody else running returns an error value.

Int of the MSP430 target is a 16 bit two-complement integer: every arithmetic
operation of the source is followed by wrapInt.
-/

namespace ProducerConsumer

/-! ## Machine integers -/

/-- Smallest value of the 16 bit C type Int. -/
def INT_MIN : Int := -32768

/-- Largest value of the 16 bit C type Int. -/
def INT_MAX : Int := 32767

/-- Reduction of a mathematical integer to the 16 bit two-complement range. -/
def wrapInt (x : Int) : Int := (x + 32768) % 65536 - 32768

/-- C unary minus on Int. -/
def cNeg (x : Int) : Int := wrapInt (-x)

/-- C bitwise complement on Int. -/
def cNot (x : Int) : Int := wrapInt (~~~x)

/-- C remainder on Int (truncated towards zero). -/
def cMod (x y : Int) : Int := wrapInt (Int.tmod x y)

/-- C subtraction on Int. -/
def cSub (x y : Int) : Int := wrapInt (x - y)

/-- C addition on Int. -/
def cAdd (x y : Int) : Int := wrapInt (x + y)

/-- C left shift by one position on Int. -/
def cShl1 (x : Int) : Int := wrapInt (x * 2)

/-! ## Constants of the source -/

/-- Size of the shared buffer in the source. -/
def BUFFER_SIZE : Nat := 10

/-- Maximum value of a produced item. -/
def MAX_VAL_NUM : Int := 10

/-- Minimum value of a produced item. -/
def MIN_VAL_NUM : Int := 1

/-- Indicator for an empty buffer slot. -/
def EMPTY_SLOT_IND : Int := -1

/-- Port and pin of the red LED (GPIO_PORT_P1, GPIO_PIN0 of driverlib). -/
def RED : Nat × Nat := (1, 0x0001)

/-- Port and pin of the green LED (GPIO_PORT_P4, GPIO_PIN7 of driverlib). -/
def GREEN : Nat × Nat := (4, 0x0080)

/-! ## Types of the source -/

/-- All LEDs of the system. -/
inductive LED_E where
  | red_e
  | green_e
deriving DecidableEq, Repr

/-- LED blinking specification handed to ledSrvTask. -/
structure LedBlinksInfo_T where
  led : LED_E
  blinksNum : Int
deriving DecidableEq, Repr

/-! ## SYS/BIOS semaphores -/

/-- A SYS/BIOS semaphore object: a counting semaphore holds a count, a binary
one is either available (count 1) or not (count 0). -/
inductive Semaphore where
  | counting (n : Nat)
  | binary (avail : Bool)
deriving DecidableEq, Repr

/-- Count of a semaphore (what Semaphore_getCount reports). -/
def Semaphore.count : Semaphore → Nat
  | .counting n => n
  | .binary b => if b then 1 else 0

/-- Semaphore_pend with BIOS_WAIT_FOREVER: takes one permit when the count is
positive; with a zero count the caller waits, which is none here. -/
def Semaphore_pend : Semaphore → Option Semaphore
  | .counting 0 => none
  | .counting (n + 1) => some (.counting n)
  | .binary false => none
  | .binary true => some (.binary false)

/-- Semaphore_post with no task waiting: a counting semaphore is incremented,
a binary one is set to 1. -/
def Semaphore_post : Semaphore → Semaphore
  | .counting n => .counting (n + 1)
  | .binary _ => .binary true

/-- Semaphore_reset: sets the count. -/
def Semaphore_reset (sem : Semaphore) (n : Nat) : Semaphore :=
  match sem with
  | .counting _ => .counting n
  | .binary _ => .binary (decide (0 < n))

/-- Handles of the statically created semaphores (cfg/global.h). -/
inductive Sem where
  | fullSlots
  | emptySlots
  | mutex
  | ledSrvSchedSem
  | setLedEnvMutex
deriving DecidableEq, Repr

/-- Shared variables of the buffer. -/
inductive Var where
  | buffer
  | in_
  | out
  | count
deriving DecidableEq, Repr

/-- Why a call does not return. -/
inductive Stuck where
  | blocked (h : Sem)
  | outOfBounds
  | nullEnv
deriving DecidableEq, Repr

/-- Observable operations, in program order. -/
inductive Event where
  | pend (h : Sem)
  | post (h : Sem)
  | read (v : Var)
  | write (v : Var)
  | setEnv (info : LedBlinksInfo_T)
  | getEnv
  | Log_info1 (msg : String) (a1 : Int)
  | Log_info2 (msg : String) (a1 a2 : Int)
  | toggle (port pins : Nat)
  | delay
deriving DecidableEq, Repr

/-! ## Global state -/

/-- The globals of main.c, the semaphore objects, the environment of
ledSrvTask and the operations performed so far. -/
structure State where
  buffer : List Int
  in_ : Int
  out : Int
  count : Int
  fullSlots : Semaphore
  emptySlots : Semaphore
  mutex : Semaphore
  ledSrvSchedSem : Semaphore
  setLedEnvMutex : Semaphore
  ledSrvTaskEnv : Option LedBlinksInfo_T
  trace : List Event
deriving DecidableEq, Repr

/-- The semaphore object behind a handle. -/
def State.sem (s : State) : Sem → Semaphore
  | .fullSlots => s.fullSlots
  | .emptySlots => s.emptySlots
  | .mutex => s.mutex
  | .ledSrvSchedSem => s.ledSrvSchedSem
  | .setLedEnvMutex => s.setLedEnvMutex

/-- Replace the semaphore object behind a handle. -/
def State.setSem (s : State) (h : Sem) (v : Semaphore) : State :=
  match h with
  | .fullSlots => { s with fullSlots := v }
  | .emptySlots => { s with emptySlots := v }
  | .mutex => { s with mutex := v }
  | .ledSrvSchedSem => { s with ledSrvSchedSem := v }
  | .setLedEnvMutex => { s with setLedEnvMutex := v }

/-- Append operations to the trace. -/
def State.emit (s : State) (es : List Event) : State :=
  { s with trace := s.trace ++ es }

/-- Semaphore_pend(h, BIOS_WAIT_FOREVER) on the state. -/
def pend (h : Sem) (s : State) : Except Stuck State :=
  match Semaphore_pend (s.sem h) with
  | none => .error (.blocked h)
  | some v => .ok ((s.setSem h v).emit [.pend h])

/-- Semaphore_post(h) on the state. -/
def post (h : Sem) (s : State) : State :=
  (s.setSem h (Semaphore_post (s.sem h))).emit [.post h]

/-- Read of arr[i]; an index outside the array has no defined value. -/
def readBuf (arr : List Int) (i : Int) : Option Int :=
  if 0 ≤ i then arr[i.toNat]? else none

/-- Write arr[i] = v; an index outside the array is not a defined write. -/
def writeBuf (arr : List Int) (i : Int) (v : Int) : Option (List Int) :=
  if 0 ≤ i ∧ i.toNat < arr.length then some (arr.set i.toNat v) else none

/-- printErrorMessage: Log_info1 with one argument. -/
def printErrorMessage (errorMsg : String) (msgArg1 : Int) (s : State) : State :=
  s.emit [.Log_info1 errorMsg msgArg1]

/-- printMessage: Log_info2 with two arguments. -/
def printMessage (msg : String) (msgArg1 msgArg2 : Int) (s : State) : State :=
  s.emit [.Log_info2 msg msgArg1 msgArg2]

/-! ## Buffer operations -/

/-- Bool insert_item(Int item), with N the value of BUFFER_SIZE. -/
def insert_item (N : Nat) (item : Int) (s : State) : Except Stuck (Bool × State) := do
  let s ← pend .emptySlots s
  let s ← pend .mutex s
  let s := s.emit [.read .in_, .read .buffer]
  match readBuf s.buffer s.in_ with
  | none => .error .outOfBounds
  | some v =>
    if v ≠ EMPTY_SLOT_IND then
      let s := printErrorMessage "insert_item:: Error, could not insert item %u!" item s
      let s := post .mutex s
      let s := post .emptySlots s
      return (false, s)
    else
      let s := { s with count := cNeg (cNot s.count) }.emit [.read .count, .write .count]
      match writeBuf s.buffer s.in_ item with
      | none => .error .outOfBounds
      | some b =>
        let s := { s with buffer := b }.emit [.read .in_, .write .buffer]
        let s := { s with in_ := cMod (cNeg (cNot s.in_)) N }.emit [.read .in_, .write .in_]
        let s := s.emit [.read .count]
        let s := printMessage "Produced item value = %u; Count = %u" item s.count s
        let s := post .mutex s
        let s := post .fullSlots s
        return (true, s)

/-- Bool remove_item(Int *item): x is the value of *item before the call, the
second component of the result its value after the call. -/
def remove_item (N : Nat) (x : Int) (s : State) : Except Stuck (Bool × Int × State) := do
  let s ← pend .fullSlots s
  let s ← pend .mutex s
  let s := s.emit [.read .out, .read .buffer]
  match readBuf s.buffer s.out with
  | none => .error .outOfBounds
  | some v =>
    if v = EMPTY_SLOT_IND then
      let s := printErrorMessage "remove_item:: Error, could not consume item %u!" x s
      let s := post .mutex s
      let s := post .fullSlots s
      return (false, x, s)
    else
      let s := { s with count := cSub s.count 1 }.emit [.read .count, .write .count]
      let s := s.emit [.read .out, .read .buffer]
      match readBuf s.buffer s.out, writeBuf s.buffer s.out EMPTY_SLOT_IND with
      | some x, some b =>
        let s := { s with buffer := b }.emit [.read .out, .write .buffer]
        let s := { s with out := cMod (cNeg (cNot s.out)) N }.emit [.read .out, .write .out]
        let s := s.emit [.read .count]
        let s := printMessage "Consumed item value = %u; Count = %u" x s.count s
        let s := post .mutex s
        let s := post .emptySlots s
        return (true, x, s)
      | _, _ => .error .outOfBounds

/-! ## LED service mailbox -/

/-- Task_setEnv(ledSrvTask, (Ptr)ledBlinkInfo): the environment pointer is
represented by the structure it points to. -/
def Task_setEnv (ledBlinkInfo : LedBlinksInfo_T) (s : State) : State :=
  { s with ledSrvTaskEnv := some ledBlinkInfo }.emit [.setEnv ledBlinkInfo]

/-- The function prepForLedSrv(LedBlinksInfo_T* ledBlinkInfo). -/
def prepForLedSrv (ledBlinkInfo : LedBlinksInfo_T) (s : State) : Except Stuck State := do
  let s ← pend .setLedEnvMutex s
  let s := Task_setEnv ledBlinkInfo s
  let s := post .ledSrvSchedSem s
  let s := post .setLedEnvMutex s
  return s

/-- GPIO_toggleOutputOnPin of driverlib, recorded as an operation. -/
def GPIO_toggleOutputOnPin (selectedPort selectedPins : Nat) (s : State) : State :=
  s.emit [.toggle selectedPort selectedPins]

/-- The busy-waiting delay(). -/
def delay (s : State) : State :=
  s.emit [.delay]

/-- The loop while(times > 0) of ledToggle: times is positive and decremented
by one in each round, so the argument is the number of rounds left. -/
def ledToggleLoop (selectedPort selectedPins : Nat) : Nat → State → State
  | 0, s => s
  | n + 1, s =>
    ledToggleLoop selectedPort selectedPins n
      (delay (GPIO_toggleOutputOnPin selectedPort selectedPins s))

/-- The function ledToggle(selectedPort, selectedPins, times). -/
def ledToggle (led : Nat × Nat) (times : Int) (s : State) : State :=
  let times := cShl1 times
  ledToggleLoop led.1 led.2 times.toNat s

/-- One round of the while(TRUE) loop of ledSrvTaskHandler. -/
def ledSrvTaskHandler (s : State) : Except Stuck State := do
  let s ← pend .ledSrvSchedSem s
  let s := s.emit [.getEnv]
  match s.ledSrvTaskEnv with
  | none => .error .nullEnv
  | some ledBlinkInfo =>
    if ledBlinkInfo.led = .green_e then
      return ledToggle GREEN ledBlinkInfo.blinksNum s
    else
      return ledToggle RED ledBlinkInfo.blinksNum s

/-! ## Initialisation -/

/-- The loop of initArray: while(size > 0) arr[--size] = EMPTY_SLOT_IND, with
the argument the current value of size. -/
def initArrayLoop (arr : List Int) : Nat → List Int
  | 0 => arr
  | n + 1 => initArrayLoop (arr.set n EMPTY_SLOT_IND) n

/-- The function initArray(arr, size). -/
def initArray (arr : List Int) (size : Int) : List Int :=
  initArrayLoop arr size.toNat

/-- Modelled from the spec: the semaphore objects are created statically by the
configuration script, which is not among the sources.  The spec gives fullSlots
the initial count 0, the two mutexes the initial count 1 and the doorbell
ledSrvSchedSem the initial count 0, and describes the doorbell as binary
(capacity 1).  The globals have their C initial values. -/
def bootState (N : Nat) : State where
  buffer := List.replicate N 0
  in_ := 0
  out := 0
  count := 0
  fullSlots := .counting 0
  emptySlots := .counting 0
  mutex := .binary true
  ledSrvSchedSem := .binary false
  setLedEnvMutex := .binary true
  ledSrvTaskEnv := none
  trace := []

/-- The state in which main() starts the kernel: emptySlots reset to
BUFFER_SIZE and the buffer initialised.  hardware_init only sets up the clock
and the GPIO directions, which are not part of the state. -/
def main (N : Nat) : State :=
  let s := bootState N
  let s := { s with emptySlots := Semaphore_reset s.emptySlots N }
  let s := { s with buffer := initArray s.buffer N }
  s

/-! ## Sequences of calls -/

/-- A call of one of the two buffer operations. -/
inductive Call where
  | insert (item : Int)
  | remove
deriving DecidableEq, Repr

/-- A completed call: what was called, the Bool returned, the value of the
variable the consumer passes by address, and the state after the call. -/
structure Step where
  call : Call
  ret : Bool
  x : Int
  after : State
deriving DecidableEq, Repr

/-- Perform one call. -/
def doCall (N : Nat) (c : Call) (s : State) (x : Int) : Except Stuck Step :=
  match c with
  | .insert item =>
    match insert_item N item s with
    | .error e => .error e
    | .ok (b, s1) => .ok ⟨c, b, x, s1⟩
  | .remove =>
    match remove_item N x s with
    | .error e => .error e
    | .ok (b, x1, s1) => .ok ⟨c, b, x1, s1⟩

/-- Perform a sequence of calls one after the other; a call that cannot get
its permit never returns, and neither does the sequence. -/
def runCalls (N : Nat) : List Call → State → Int → Except Stuck (List Step)
  | [], _, _ => .ok []
  | c :: cs, s, x =>
    match doCall N c s x with
    | .error e => .error e
    | .ok st =>
      match runCalls N cs st.after st.x with
      | .error e => .error e
      | .ok rest => .ok (st :: rest)

/-- Values passed to the insert_item calls that returned TRUE. -/
def insertedValues (steps : List Step) : List Int :=
  steps.filterMap fun st =>
    match st.call, st.ret with
    | .insert item, true => some item
    | _, _ => none

/-- Values returned by the remove_item calls that returned TRUE. -/
def removedValues (steps : List Step) : List Int :=
  steps.filterMap fun st =>
    match st.call, st.ret with
    | .remove, true => some st.x
    | _, _ => none

/-- Number of buffer slots holding something else than EMPTY_SLOT_IND. -/
def occupiedSlots (arr : List Int) : Nat :=
  arr.countP fun v => decide (v ≠ EMPTY_SLOT_IND)

/-- An operation of the mailbox: a publish or one round of the service task. -/
inductive LedOp where
  | publish (info : LedBlinksInfo_T)
  | consume
deriving DecidableEq, Repr

/-- Perform one mailbox operation. -/
def doLedOp (op : LedOp) (s : State) : Except Stuck State :=
  match op with
  | .publish info => prepForLedSrv info s
  | .consume => ledSrvTaskHandler s

/-- Perform mailbox operations one after the other, collecting the state
after each of them. -/
def runLedOps : List LedOp → State → Except Stuck (List State)
  | [], _ => .ok []
  | op :: ops, s =>
    match doLedOp op s with
    | .error e => .error e
    | .ok s1 =>
      match runLedOps ops s1 with
      | .error e => .error e
      | .ok rest => .ok (s1 :: rest)

/-- Number of posts of a semaphore recorded in a trace. -/
def postCount (h : Sem) (tr : List Event) : Nat :=
  tr.count (.post h)

/-! ## Producer and consumer tasks -/

/-- The value producerHandler assigns to prodItem, with randVal the result of rand():
rand() % (MAX_VAL_NUM - MIN_VAL_NUM + 1) + MIN_VAL_NUM. -/
def prodItem (randVal : Int) : Int :=
  cAdd (cMod randVal (cAdd (cSub MAX_VAL_NUM MIN_VAL_NUM) 1)) MIN_VAL_NUM

/-- One round of the while(TRUE) loop of producerHandler, with arg0 the producer id
and randVal the result of rand() in this round. -/
def producerHandler (N : Nat) (arg0 : Int) (randVal : Int) (s : State) :
    Except Stuck State := do
  let prodItem := prodItem randVal
  let (ok, s) ← insert_item N prodItem s
  if !ok then
    let s := printErrorMessage "ProducerID = %u:: Error, could not insert item!" arg0 s
    return s
  else
    let s := printMessage "ProducerID = %u; Produced Item = %u" arg0 prodItem s
    let ledBlinkInfo : LedBlinksInfo_T := { led := .green_e, blinksNum := prodItem }
    prepForLedSrv ledBlinkInfo s

/-- One round of the while(TRUE) loop of consumerHandler, with arg0 the consumer id
and consItem the value of the local variable consItem at the start of the round; the
result carries its value at the end of the round. -/
def consumerHandler (N : Nat) (arg0 : Int) (consItem : Int) (s : State) :
    Except Stuck (Int × State) := do
  let (ok, consItem, s) ← remove_item N consItem s
  if !ok then
    let s := printErrorMessage "ConsumerID = %u:: Error, could not remove item!" arg0 s
    return (consItem, s)
  else
    let s := printMessage "ConsumerID = %u; Removed Item = %u" arg0 consItem s
    let ledBlinkInfo : LedBlinksInfo_T := { led := .red_e, blinksNum := consItem }
    let s ← prepForLedSrv ledBlinkInfo s
    return (consItem, s)

/-! ## Shapes of operation traces -/

/-- The operations of n rounds of the loop of ledToggle: a toggle of the pin followed
by a delay, n times. -/
def burst (selectedPort selectedPins : Nat) : Nat → List Event
  | 0 => []
  | n + 1 => .toggle selectedPort selectedPins :: .delay :: burst selectedPort selectedPins n

/-- Whether an operation is a pend or a post of a semaphore. -/
def Event.isSemOp : Event → Bool
  | .pend _ => true
  | .post _ => true
  | _ => false

/-- Whether an operation is an access to buffer, in, out or count. -/
def Event.isAccess : Event → Bool
  | .read _ => true
  | .write _ => true
  | _ => false

/-- Whether an operation is the one-argument error diagnostic of printErrorMessage. -/
def Event.isErrorDiagnostic : Event → Bool
  | .Log_info1 _ _ => true
  | _ => false

/-- Operations of a successful insert_item, with c the new value of count. -/
def insertSuccessOps (item c : Int) : List Event :=
  [.pend .emptySlots, .pend .mutex, .read .in_, .read .buffer,
    .read .count, .write .count, .read .in_, .write .buffer, .read .in_, .write .in_,
    .read .count, .Log_info2 "Produced item value = %u; Count = %u" item c,
    .post .mutex, .post .fullSlots]

/-- Operations of a failed insert_item. -/
def insertFailureOps (item : Int) : List Event :=
  [.pend .emptySlots, .pend .mutex, .read .in_, .read .buffer,
    .Log_info1 "insert_item:: Error, could not insert item %u!" item,
    .post .mutex, .post .emptySlots]

/-- Operations of a successful remove_item, with v the value removed and c the new
value of count. -/
def removeSuccessOps (v c : Int) : List Event :=
  [.pend .fullSlots, .pend .mutex, .read .out, .read .buffer,
    .read .count, .write .count, .read .out, .read .buffer, .read .out, .write .buffer,
    .read .out, .write .out, .read .count,
    .Log_info2 "Consumed item value = %u; Count = %u" v c,
    .post .mutex, .post .emptySlots]

/-- Operations of a failed remove_item, with x the value of *item. -/
def removeFailureOps (x : Int) : List Event :=
  [.pend .fullSlots, .pend .mutex, .read .out, .read .buffer,
    .Log_info1 "remove_item:: Error, could not consume item %u!" x,
    .post .mutex, .post .fullSlots]

/-- The locking discipline on the operations of one call: the pend of the counting
semaphore first, then the pend of the mutex, then operations that are no pend and no
post, then the post of the mutex, then the post of a counting semaphore last. -/
def Disciplined (first last : Sem) (ops : List Event) : Prop :=
  ∃ mid, ops = [.pend first, .pend .mutex] ++ mid ++ [.post .mutex, .post last] ∧
    ∀ e ∈ mid, e.isSemOp = false

/-! ## Invariants used in the proofs -/

/-- The buffer seen as a queue: q lists the values inserted and not yet removed, oldest
first.  The slots out, out+1, ... (modulo N) hold the values of q, the remaining slots
hold EMPTY_SLOT_IND, and the cursors, count and permits agree with the length of q. -/
structure QueueInv (N : Nat) (s : State) (q : List Int) : Prop where
  len : s.buffer.length = N
  out_nonneg : 0 ≤ s.out
  out_lt : s.out < N
  in_eq : s.in_ = ((s.out.toNat + q.length) % N : Nat)
  count_eq : s.count = q.length
  le : q.length ≤ N
  full : s.fullSlots = .counting q.length
  empty : s.emptySlots = .counting (N - q.length)
  mutex : 0 < s.mutex.count
  slots : ∀ i, i < N → s.buffer[(s.out.toNat + i) % N]? = some (q[i]?.getD EMPTY_SLOT_IND)
  occ : occupiedSlots s.buffer = q.countP fun v => decide (v ≠ EMPTY_SLOT_IND)

/-- The doorbell is a binary semaphore, a ring implies a request in the environment of
ledSrvTask, and the mailbox mutex is free. -/
def MailboxInv (s : State) : Prop :=
  (∃ b, s.ledSrvSchedSem = .binary b ∧ (b = true → s.ledSrvTaskEnv ≠ none)) ∧
    0 < s.setLedEnvMutex.count

/-! ## Arithmetic and semaphore lemmas, single calls -/
theorem wrapInt_of_range {x : Int} (h1 : INT_MIN ≤ x) (h2 : x ≤ INT_MAX) : wrapInt x = x := by
  unfold INT_MIN at h1; unfold INT_MAX at h2; unfold wrapInt; omega

theorem int_not_eq (x : Int) : ~~~x = -x - 1 := by
  cases x with
  | ofNat n => show Int.negSucc n = _; rw [Int.negSucc_eq]; simp; omega
  | negSucc n => show Int.ofNat n = _; rw [Int.negSucc_eq]; simp

theorem cNeg_cNot (x : Int) : cNeg (cNot x) = wrapInt (x + 1) := by
  unfold cNeg cNot
  rw [int_not_eq]
  unfold wrapInt
  omega

theorem pend_post_cancel {m m' : Semaphore} (h : Semaphore_pend m = some m') :
    Semaphore_post m' = m := by
  cases m with
  | counting n =>
    cases n with
    | zero => simp [Semaphore_pend] at h
    | succ k => simp [Semaphore_pend] at h; subst h; rfl
  | binary b =>
    cases b with
    | false => simp [Semaphore_pend] at h
    | true => simp [Semaphore_pend] at h; subst h; rfl

theorem insert_item_success (N : Nat) (item : Int) (s : State) (e m : Semaphore)
    (he : Semaphore_pend s.emptySlots = some e) (hm : Semaphore_pend s.mutex = some m)
    (hin : 0 ≤ s.in_) (hlt : s.in_.toNat < s.buffer.length)
    (hslot : s.buffer[s.in_.toNat]? = some EMPTY_SLOT_IND) :
    insert_item N item s = .ok (true,
      { s with
        count := wrapInt (s.count + 1)
        buffer := s.buffer.set s.in_.toNat item
        in_ := cMod (wrapInt (s.in_ + 1)) N
        emptySlots := e
        fullSlots := Semaphore_post s.fullSlots
        trace := s.trace ++ [.pend .emptySlots, .pend .mutex, .read .in_, .read .buffer,
          .read .count, .write .count, .read .in_, .write .buffer, .read .in_, .write .in_,
          .read .count,
          .Log_info2 "Produced item value = %u; Count = %u" item (wrapInt (s.count + 1)),
          .post .mutex, .post .fullSlots] }) := by
  have hpm := pend_post_cancel hm
  simp [insert_item, pend, post, State.sem, State.setSem, State.emit, he, hm, readBuf,
    writeBuf, hin, hlt, hslot, printMessage, bind, Except.bind, pure, Except.pure,
    cNeg_cNot, hpm]

theorem pend_of_pos {m : Semaphore} (h : 0 < m.count) :
    ∃ m', Semaphore_pend m = some m' ∧ m'.count = m.count - 1 := by
  cases m with
  | counting n =>
    cases n with
    | zero => simp [Semaphore.count] at h
    | succ k => exact ⟨.counting k, rfl, by simp [Semaphore.count]⟩
  | binary b =>
    cases b with
    | false => simp [Semaphore.count] at h
    | true => exact ⟨.binary false, rfl, by simp [Semaphore.count]⟩

theorem pend_eq_none_iff (m : Semaphore) : Semaphore_pend m = none ↔ m.count = 0 := by
  cases m with
  | counting n => cases n <;> simp [Semaphore_pend, Semaphore.count]
  | binary b => cases b <;> simp [Semaphore_pend, Semaphore.count]

theorem cursor_next {i : Int} {N : Nat} (h0 : 0 ≤ i) (hN : i < N) (hmax : (N : Int) ≤ INT_MAX) :
    cMod (wrapInt (i + 1)) N = (i + 1) % N := by
  have hmax' : (N : Int) ≤ 32767 := hmax
  have hw : wrapInt (i + 1) = i + 1 := by unfold wrapInt; omega
  have hpos : (0 : Int) < N := by omega
  have h1 := Int.emod_nonneg (i + 1) (ne_of_gt hpos)
  have h2 := Int.emod_lt_of_pos (i + 1) hpos
  unfold cMod
  rw [hw, Int.tmod_eq_emod (by omega) (by omega)]
  unfold wrapInt; omega

theorem readBuf_eq_some {arr : List Int} {i v : Int} (h : readBuf arr i = some v) :
    0 ≤ i ∧ i.toNat < arr.length ∧ arr[i.toNat]? = some v := by
  unfold readBuf at h
  by_cases h0 : 0 ≤ i
  · simp [h0] at h
    refine ⟨h0, ?_, h⟩
    by_contra hlt
    rw [List.getElem?_eq_none (by omega)] at h
    cases h
  · simp [h0] at h

theorem readBuf_set_same {arr : List Int} {i : Int} (v : Int) (h0 : 0 ≤ i)
    (hlt : i.toNat < arr.length) : readBuf (arr.set i.toNat v) i = some v := by
  simp [readBuf, h0, hlt]

theorem readBuf_set_other {arr : List Int} {i j : Int} (v : Int) (h0 : 0 ≤ i) (hij : j ≠ i) :
    readBuf (arr.set i.toNat v) j = readBuf arr j := by
  unfold readBuf
  by_cases hj : 0 ≤ j
  · simp only [hj, if_true]
    rw [List.getElem?_set_ne]
    omega
  · simp [hj]

theorem insert_item_failure (N : Nat) (item : Int) (s : State) (e m : Semaphore) (v : Int)
    (he : Semaphore_pend s.emptySlots = some e) (hm : Semaphore_pend s.mutex = some m)
    (hslot : readBuf s.buffer s.in_ = some v) (hv : v ≠ EMPTY_SLOT_IND) :
    insert_item N item s = .ok (false,
      { s with
        trace := s.trace ++ [.pend .emptySlots, .pend .mutex, .read .in_, .read .buffer,
          .Log_info1 "insert_item:: Error, could not insert item %u!" item,
          .post .mutex, .post .emptySlots] }) := by
  have hpm := pend_post_cancel hm
  have hpe := pend_post_cancel he
  simp [insert_item, pend, post, State.sem, State.setSem, State.emit, he, hm, hslot, hv,
    printErrorMessage, bind, Except.bind, pure, Except.pure, hpm, hpe]

theorem remove_item_success (N : Nat) (x : Int) (s : State) (f m : Semaphore) (v : Int)
    (hf : Semaphore_pend s.fullSlots = some f) (hm : Semaphore_pend s.mutex = some m)
    (hslot : readBuf s.buffer s.out = some v) (hv : v ≠ EMPTY_SLOT_IND) :
    remove_item N x s = .ok (true, v,
      { s with
        count := wrapInt (s.count - 1)
        buffer := s.buffer.set s.out.toNat EMPTY_SLOT_IND
        out := cMod (wrapInt (s.out + 1)) N
        fullSlots := f
        emptySlots := Semaphore_post s.emptySlots
        trace := s.trace ++ [.pend .fullSlots, .pend .mutex, .read .out, .read .buffer,
          .read .count, .write .count, .read .out, .read .buffer, .read .out, .write .buffer,
          .read .out, .write .out, .read .count,
          .Log_info2 "Consumed item value = %u; Count = %u" v (wrapInt (s.count - 1)),
          .post .mutex, .post .emptySlots] }) := by
  have hpm := pend_post_cancel hm
  obtain ⟨h0, hlt, _⟩ := readBuf_eq_some hslot
  simp [remove_item, pend, post, State.sem, State.setSem, State.emit, hf, hm, hslot, hv,
    writeBuf, h0, hlt, printMessage, bind, Except.bind, pure, Except.pure, cNeg_cNot, cSub, hpm]

theorem remove_item_failure (N : Nat) (x : Int) (s : State) (f m : Semaphore)
    (hf : Semaphore_pend s.fullSlots = some f) (hm : Semaphore_pend s.mutex = some m)
    (hslot : readBuf s.buffer s.out = some EMPTY_SLOT_IND) :
    remove_item N x s = .ok (false, x,
      { s with
        trace := s.trace ++ [.pend .fullSlots, .pend .mutex, .read .out, .read .buffer,
          .Log_info1 "remove_item:: Error, could not consume item %u!" x,
          .post .mutex, .post .fullSlots] }) := by
  have hpm := pend_post_cancel hm
  have hpf := pend_post_cancel hf
  simp [remove_item, pend, post, State.sem, State.setSem, State.emit, hf, hm, hslot,
    printErrorMessage, bind, Except.bind, pure, Except.pure, hpm, hpf]

theorem insert_item_blocked (N : Nat) (item : Int) (s : State)
    (he : s.emptySlots.count = 0) :
    insert_item N item s = .error (.blocked .emptySlots) := by
  have h := (pend_eq_none_iff s.emptySlots).2 he
  simp [insert_item, pend, State.sem, h, bind, Except.bind]

theorem remove_item_blocked (N : Nat) (x : Int) (s : State)
    (hf : s.fullSlots.count = 0) :
    remove_item N x s = .error (.blocked .fullSlots) := by
  have h := (pend_eq_none_iff s.fullSlots).2 hf
  simp [remove_item, pend, State.sem, h, bind, Except.bind]

/-! ## Lists, initialisation -/

theorem add_mod_inj {N o i j : Nat} (hi : i < N) (hj : j < N)
    (h : (o + i) % N = (o + j) % N) : i = j := by
  have h1 : i % N = j % N := Nat.ModEq.add_left_cancel' o h
  rwa [Nat.mod_eq_of_lt hi, Nat.mod_eq_of_lt hj] at h1

theorem occupiedSlots_set {arr : List Int} {i : Nat} {a : Int} (b : Int)
    (h : arr[i]? = some a) :
    occupiedSlots (arr.set i b) + (if a ≠ EMPTY_SLOT_IND then 1 else 0)
      = occupiedSlots arr + (if b ≠ EMPTY_SLOT_IND then 1 else 0) := by
  induction arr generalizing i with
  | nil => simp at h
  | cons c cs ih =>
    cases i with
    | zero =>
      simp at h
      subst h
      simp only [occupiedSlots, List.set_cons_zero, List.countP_cons, decide_eq_true_eq]
      omega
    | succ k =>
      simp at h
      have := ih h
      simp only [occupiedSlots, List.set_cons_succ, List.countP_cons] at this ⊢
      omega

theorem drop_set_self (arr : List Int) (k : Nat) (v : Int) (h : k < arr.length) :
    (arr.set k v).drop k = v :: arr.drop (k + 1) := by
  induction k generalizing arr with
  | zero =>
    cases arr with
    | nil => simp at h
    | cons a as => simp
  | succ j ih =>
    cases arr with
    | nil => simp at h
    | cons a as =>
      simp only [List.set_cons_succ, List.drop_succ_cons]
      exact ih as (by simpa using h)

theorem initArrayLoop_eq (n : Nat) (arr : List Int) (h : n ≤ arr.length) :
    initArrayLoop arr n = List.replicate n EMPTY_SLOT_IND ++ arr.drop n := by
  induction n generalizing arr with
  | zero => simp [initArrayLoop]
  | succ k ih =>
    rw [initArrayLoop, ih _ (by simp; omega)]
    rw [List.replicate_succ', List.append_assoc]
    congr 1
    rw [drop_set_self arr k _ (by omega)]
    rfl

theorem main_eq (N : Nat) :
    main N =
      { buffer := List.replicate N EMPTY_SLOT_IND, in_ := 0, out := 0, count := 0,
        fullSlots := .counting 0, emptySlots := .counting N, mutex := .binary true,
        ledSrvSchedSem := .binary false, setLedEnvMutex := .binary true,
        ledSrvTaskEnv := none, trace := [] } := by
  simp [main, bootState, Semaphore_reset, initArray, initArrayLoop_eq]

/-! ## The queue invariant is kept by every call -/

theorem queueInv_main (N : Nat) (hN : 0 < N) : QueueInv N (main N) [] := by
  rw [main_eq]
  constructor
  · simp
  · simp
  · simpa using hN
  · simp
  · simp
  · simp
  · simp
  · simp
  · simp [Semaphore.count]
  · intro i _
    simp [Nat.mod_lt _ hN]
  · simp only [occupiedSlots, List.countP_nil]
    rw [List.countP_eq_zero]
    intro a ha
    simp [List.eq_of_mem_replicate ha]

theorem queueInv_insert {N : Nat} {s : State} {q : List Int} (h : QueueInv N s q)
    (hmax : (N : Int) ≤ INT_MAX) (hlt : q.length < N) (item : Int) :
    ∃ s', insert_item N item s = .ok (true, s') ∧ QueueInv N s' (q ++ [item]) := by
  have hmax' : (N : Int) ≤ 32767 := hmax
  have ho : ((s.out.toNat : Nat) : Int) = s.out := Int.toNat_of_nonneg h.out_nonneg
  have hoN : s.out.toNat < N := by have := h.out_lt; omega
  have hidx : (s.out.toNat + q.length) % N < N := Nat.mod_lt _ (by omega)
  have hin : s.in_.toNat = (s.out.toNat + q.length) % N := by
    rw [h.in_eq]; exact Int.toNat_ofNat _
  have hin0 : 0 ≤ s.in_ := by rw [h.in_eq]; exact Int.natCast_nonneg _
  have hinN : s.in_ < N := by rw [h.in_eq]; exact_mod_cast hidx
  have hslot : s.buffer[s.in_.toNat]? = some EMPTY_SLOT_IND := by
    rw [hin, h.slots _ hlt]; simp
  have he : Semaphore_pend s.emptySlots = some (.counting (N - q.length - 1)) := by
    rw [h.empty]
    have : N - q.length = (N - q.length - 1) + 1 := by omega
    rw [this]; rfl
  obtain ⟨m, hm, _⟩ := pend_of_pos h.mutex
  refine ⟨_, insert_item_success N item s _ m he hm hin0 (by rw [h.len, hin]; exact hidx)
    hslot, ?_⟩
  constructor
  · simp [h.len]
  · exact h.out_nonneg
  · exact h.out_lt
  · show cMod (wrapInt (s.in_ + 1)) N = _
    rw [cursor_next hin0 hinN hmax, h.in_eq]
    simp only [List.length_append, List.length_singleton]
    norm_cast
    rw [Nat.mod_add_mod, Nat.add_assoc]
  · show wrapInt (s.count + 1) = _
    rw [h.count_eq, wrapInt_of_range (by unfold INT_MIN; omega) (by unfold INT_MAX; omega)]
    simp
  · simp; omega
  · show Semaphore_post s.fullSlots = _
    rw [h.full]; simp [Semaphore_post]
  · show Semaphore.counting (N - q.length - 1) = _
    simp; omega
  · exact h.mutex
  · intro i hi
    show (s.buffer.set s.in_.toNat item)[(s.out.toNat + i) % N]? = _
    rw [hin]
    by_cases hiq : i = q.length
    · subst hiq
      rw [List.getElem?_set_self (by rw [h.len]; exact hidx)]
      simp
    · rw [List.getElem?_set_ne (fun hc => hiq (add_mod_inj hlt hi hc).symm), h.slots i hi]
      congr 1
      by_cases hil : i < q.length
      · rw [List.getElem?_append_left hil]
      · rw [List.getElem?_eq_none (by omega), List.getElem?_eq_none (by simp; omega)]
  · show occupiedSlots (s.buffer.set s.in_.toNat item) = _
    have := occupiedSlots_set item hslot
    rw [h.occ] at this
    simp only [ne_eq, not_true_eq_false, if_false, Nat.add_zero] at this
    rw [this, List.countP_append]
    simp [List.countP_cons]

theorem queueInv_remove_success {N : Nat} {s : State} {q : List Int} {v : Int}
    (h : QueueInv N s (v :: q)) (hmax : (N : Int) ≤ INT_MAX) (hv : v ≠ EMPTY_SLOT_IND)
    (x : Int) :
    ∃ s', remove_item N x s = .ok (true, v, s') ∧ QueueInv N s' q := by
  have hmax' : (N : Int) ≤ 32767 := hmax
  have ho : ((s.out.toNat : Nat) : Int) = s.out := Int.toNat_of_nonneg h.out_nonneg
  have hoN : s.out.toNat < N := by have := h.out_lt; omega
  have hle := h.le
  simp only [List.length_cons] at hle
  have hslot0 : s.buffer[s.out.toNat]? = some v := by
    have := h.slots 0 (by omega)
    simpa [Nat.mod_eq_of_lt hoN] using this
  have hslot : readBuf s.buffer s.out = some v := by
    simp [readBuf, h.out_nonneg, hslot0]
  have hf : Semaphore_pend s.fullSlots = some (.counting q.length) := by
    rw [h.full]; rfl
  obtain ⟨m, hm, _⟩ := pend_of_pos h.mutex
  have hout' : cMod (wrapInt (s.out + 1)) N = (((s.out.toNat + 1) % N : Nat) : Int) := by
    rw [cursor_next h.out_nonneg h.out_lt hmax, ← ho]
    push_cast
    simp
  refine ⟨_, remove_item_success N x s _ m v hf hm hslot hv, ?_⟩
  constructor
  · simp [h.len]
  · show 0 ≤ cMod (wrapInt (s.out + 1)) N
    rw [hout']; exact Int.natCast_nonneg _
  · show cMod (wrapInt (s.out + 1)) N < N
    rw [hout']; exact_mod_cast Nat.mod_lt _ (by omega)
  · show s.in_ = (((cMod (wrapInt (s.out + 1)) N).toNat + q.length) % N : Nat)
    rw [hout', h.in_eq]
    simp only [Int.toNat_ofNat, List.length_cons, Nat.mod_add_mod]
    congr 2
    omega
  · show wrapInt (s.count - 1) = _
    rw [h.count_eq, wrapInt_of_range (by unfold INT_MIN; simp; omega)
      (by unfold INT_MAX; simp; omega)]
    simp
  · omega
  · rfl
  · show Semaphore_post s.emptySlots = _
    rw [h.empty]
    simp only [Semaphore_post, List.length_cons, Semaphore.counting.injEq]
    omega
  · exact h.mutex
  · intro i hi
    show (s.buffer.set s.out.toNat EMPTY_SLOT_IND)[((cMod (wrapInt (s.out + 1)) N).toNat + i) % N]?
      = _
    rw [hout']
    simp only [Int.toNat_ofNat, Nat.mod_add_mod]
    by_cases hiN : i + 1 = N
    · have hidx : (s.out.toNat + 1 + i) % N = s.out.toNat := by
        rw [Nat.add_assoc, Nat.add_comm 1 i, hiN, Nat.add_mod_right, Nat.mod_eq_of_lt hoN]
      rw [hidx, List.getElem?_set_self (by rw [h.len]; exact hoN),
        List.getElem?_eq_none (by omega)]
      rfl
    · have hne : s.out.toNat ≠ (s.out.toNat + 1 + i) % N := by
        intro hc
        have h0 : (s.out.toNat + 0) % N = (s.out.toNat + (1 + i)) % N := by
          rw [Nat.add_zero, Nat.mod_eq_of_lt hoN, ← Nat.add_assoc]; exact hc
        have := add_mod_inj (by omega) (by omega) h0
        omega
      rw [List.getElem?_set_ne hne, Nat.add_assoc, h.slots (1 + i) (by omega)]
      congr 1
      rw [Nat.add_comm 1 i]
      simp
  · show occupiedSlots (s.buffer.set s.out.toNat EMPTY_SLOT_IND) = _
    have := occupiedSlots_set EMPTY_SLOT_IND hslot0
    rw [h.occ, List.countP_cons] at this
    have e1 : (if decide (v ≠ EMPTY_SLOT_IND) = true then 1 else 0 : Nat) = 1 :=
      if_pos (by simpa using hv)
    have e2 : (if EMPTY_SLOT_IND ≠ EMPTY_SLOT_IND then 1 else 0 : Nat) = 0 :=
      if_neg (by simp)
    rw [if_pos hv, e1, e2] at this
    omega

theorem queueInv_remove_failure {N : Nat} {s : State} {q : List Int}
    (h : QueueInv N s (EMPTY_SLOT_IND :: q)) (x : Int) :
    ∃ s', remove_item N x s = .ok (false, x, s') ∧ QueueInv N s' (EMPTY_SLOT_IND :: q) := by
  have hoN : s.out.toNat < N := by have := h.out_lt; have := h.out_nonneg; omega
  have hle := h.le
  simp only [List.length_cons] at hle
  have hslot0 : s.buffer[s.out.toNat]? = some EMPTY_SLOT_IND := by
    have := h.slots 0 (by omega)
    simpa [Nat.mod_eq_of_lt hoN] using this
  have hslot : readBuf s.buffer s.out = some EMPTY_SLOT_IND := by
    simp [readBuf, h.out_nonneg, hslot0]
  have hf : Semaphore_pend s.fullSlots = some (.counting q.length) := by
    rw [h.full]; rfl
  obtain ⟨m, hm, _⟩ := pend_of_pos h.mutex
  refine ⟨_, remove_item_failure N x s _ m hf hm hslot, ?_⟩
  exact ⟨h.len, h.out_nonneg, h.out_lt, h.in_eq, h.count_eq, h.le, h.full, h.empty, h.mutex,
    h.slots, h.occ⟩

theorem queueInv_doCall {N : Nat} {s : State} {q : List Int} (h : QueueInv N s q)
    (hmax : (N : Int) ≤ INT_MAX) (c : Call) (x : Int) :
    (∃ st q', doCall N c s x = .ok st ∧ QueueInv N st.after q' ∧
        q ++ insertedValues [st] = removedValues [st] ++ q' ∧
        (∀ v ∈ q', v ∈ q ∨ c = .insert v) ∧
        (st.ret = false → EMPTY_SLOT_IND ∈ q)) ∨
      doCall N c s x = .error (.blocked .emptySlots) ∨
      doCall N c s x = .error (.blocked .fullSlots) := by
  cases c with
  | insert item =>
    by_cases hlt : q.length < N
    · obtain ⟨s', hs', hinv⟩ := queueInv_insert h hmax hlt item
      refine Or.inl ⟨⟨.insert item, true, x, s'⟩, q ++ [item], ?_, hinv, ?_, ?_, ?_⟩
      · simp [doCall, hs']
      · simp [insertedValues, removedValues]
      · intro v hv
        rcases List.mem_append.1 hv with hv | hv
        · exact Or.inl hv
        · right; simp at hv; rw [hv]
      · intro hc; cases hc
    · refine Or.inr (Or.inl ?_)
      have hc : s.emptySlots.count = 0 := by
        rw [h.empty]; have := h.le; simp [Semaphore.count]; omega
      simp [doCall, insert_item_blocked N item s hc]
  | remove =>
    cases q with
    | nil =>
      refine Or.inr (Or.inr ?_)
      have hc : s.fullSlots.count = 0 := by rw [h.full]; simp [Semaphore.count]
      simp [doCall, remove_item_blocked N x s hc]
    | cons v q' =>
      by_cases hv : v = EMPTY_SLOT_IND
      · subst hv
        obtain ⟨s', hs', hinv⟩ := queueInv_remove_failure h x
        refine Or.inl ⟨⟨.remove, false, x, s'⟩, EMPTY_SLOT_IND :: q', ?_, hinv, ?_, ?_, ?_⟩
        · simp [doCall, hs']
        · simp [insertedValues, removedValues]
        · intro v hv; exact Or.inl hv
        · intro _; exact List.mem_cons_self _ _
      · obtain ⟨s', hs', hinv⟩ := queueInv_remove_success h hmax hv x
        refine Or.inl ⟨⟨.remove, true, v, s'⟩, q', ?_, hinv, ?_, ?_, ?_⟩
        · simp [doCall, hs']
        · simp [insertedValues, removedValues]
        · intro w hw; exact Or.inl (List.mem_cons_of_mem _ hw)
        · intro hc; cases hc

theorem insertedValues_cons (st : Step) (rest : List Step) :
    insertedValues (st :: rest) = insertedValues [st] ++ insertedValues rest := by
  unfold insertedValues
  rw [← List.filterMap_append]
  rfl

theorem removedValues_cons (st : Step) (rest : List Step) :
    removedValues (st :: rest) = removedValues [st] ++ removedValues rest := by
  unfold removedValues
  rw [← List.filterMap_append]
  rfl

theorem queueInv_runCalls {N : Nat} (hmax : (N : Int) ≤ INT_MAX) (calls : List Call) :
    ∀ (s : State) (x : Int) (q : List Int), QueueInv N s q →
      (∃ steps q', runCalls N calls s x = .ok steps ∧
        q ++ insertedValues steps = removedValues steps ++ q' ∧
        ∀ st ∈ steps, (∃ q'', QueueInv N st.after q'' ∧
          ∀ v ∈ q'', v ∈ q ∨ Call.insert v ∈ calls) ∧
          (st.ret = false → EMPTY_SLOT_IND ∈ q ∨ Call.insert EMPTY_SLOT_IND ∈ calls)) ∨
      runCalls N calls s x = .error (.blocked .emptySlots) ∨
      runCalls N calls s x = .error (.blocked .fullSlots) := by
  induction calls with
  | nil =>
    intro s x q _
    exact Or.inl ⟨[], q, rfl, by simp [insertedValues, removedValues], by simp⟩
  | cons c cs ih =>
    intro s x q h
    rcases queueInv_doCall h hmax c x with ⟨st, q1, hst, hinv1, hq1, hmem1, hret1⟩ | hb | hb
    · rcases ih st.after st.x q1 hinv1 with ⟨rest, q2, hrest, hq2, hmem2⟩ | hb | hb
      · refine Or.inl ⟨st :: rest, q2, ?_, ?_, ?_⟩
        · simp [runCalls, hst, hrest]
        · rw [insertedValues_cons, removedValues_cons, ← List.append_assoc, hq1,
            List.append_assoc, hq2, List.append_assoc]
        · intro st' hst'
          rcases List.mem_cons.1 hst' with heq | hin
          · subst heq
            refine ⟨⟨q1, hinv1, fun v hv => ?_⟩, fun hr => Or.inl (hret1 hr)⟩
            rcases hmem1 v hv with h1 | h1
            · exact Or.inl h1
            · exact Or.inr (by rw [h1]; exact List.mem_cons_self _ _)
          · have lift : ∀ v, v ∈ q1 ∨ Call.insert v ∈ cs → v ∈ q ∨ Call.insert v ∈ c :: cs := by
              intro v hv
              rcases hv with h1 | h1
              · rcases hmem1 v h1 with h2 | h2
                · exact Or.inl h2
                · exact Or.inr (by rw [h2]; exact List.mem_cons_self _ _)
              · exact Or.inr (List.mem_cons_of_mem _ h1)
            obtain ⟨⟨q3, hinv3, hmem3⟩, hret3⟩ := hmem2 st' hin
            exact ⟨⟨q3, hinv3, fun v hv => lift v (hmem3 v hv)⟩, fun hr => lift _ (hret3 hr)⟩
      · exact Or.inr (Or.inl (by simp [runCalls, hst, hb]))
      · exact Or.inr (Or.inr (by simp [runCalls, hst, hb]))
    · exact Or.inr (Or.inl (by simp [runCalls, hb]))
    · exact Or.inr (Or.inr (by simp [runCalls, hb]))

/-! ## Mailbox lemmas -/

theorem prepForLedSrv_eq (r : LedBlinksInfo_T) (s : State) (m : Semaphore)
    (hm : Semaphore_pend s.setLedEnvMutex = some m) :
    prepForLedSrv r s = .ok
      { s with
        ledSrvTaskEnv := some r
        ledSrvSchedSem := Semaphore_post s.ledSrvSchedSem
        trace := s.trace ++ [.pend .setLedEnvMutex, .setEnv r, .post .ledSrvSchedSem,
          .post .setLedEnvMutex] } := by
  have hpm := pend_post_cancel hm
  simp [prepForLedSrv, pend, post, Task_setEnv, State.sem, State.setSem, State.emit, hm,
    bind, Except.bind, pure, Except.pure, hpm]

theorem ledToggleLoop_frame (p q : Nat) (n : Nat) (s : State) :
    ledToggleLoop p q n s = { s with trace := (ledToggleLoop p q n s).trace } := by
  induction n generalizing s with
  | zero => rfl
  | succ k ih =>
    rw [ledToggleLoop, ih]
    rfl

theorem ledToggle_frame (led : Nat × Nat) (times : Int) (s : State) :
    ledToggle led times s = { s with trace := (ledToggle led times s).trace } := by
  unfold ledToggle
  exact ledToggleLoop_frame _ _ _ s

theorem ledSrvTaskHandler_eq (s : State) (d : Semaphore) (info : LedBlinksInfo_T)
    (hd : Semaphore_pend s.ledSrvSchedSem = some d) (henv : s.ledSrvTaskEnv = some info) :
    ledSrvTaskHandler s = .ok
      (ledToggle (if info.led = .green_e then GREEN else RED) info.blinksNum
        { s with
          ledSrvSchedSem := d
          trace := s.trace ++ [.pend .ledSrvSchedSem, .getEnv] }) := by
  by_cases hg : info.led = .green_e
  · simp [ledSrvTaskHandler, pend, State.sem, hd, State.setSem, State.emit, bind,
      Except.bind, henv, hg, pure, Except.pure]
  · simp [ledSrvTaskHandler, pend, State.sem, hd, State.setSem, State.emit, bind,
      Except.bind, henv, hg, pure, Except.pure]

theorem mailboxInv_doLedOp {s : State} (h : MailboxInv s) (op : LedOp) :
    (∃ s', doLedOp op s = .ok s' ∧ MailboxInv s') ∨
      doLedOp op s = .error (.blocked .ledSrvSchedSem) := by
  obtain ⟨⟨b, hb, henv⟩, hmx⟩ := h
  cases op with
  | publish r =>
    obtain ⟨m, hm, _⟩ := pend_of_pos hmx
    refine Or.inl ⟨_, prepForLedSrv_eq r s m hm, ⟨true, ?_, ?_⟩, hmx⟩
    · show Semaphore_post s.ledSrvSchedSem = _
      rw [hb]; rfl
    · intro _; simp
  | consume =>
    cases b with
    | false =>
      right
      simp [doLedOp, ledSrvTaskHandler, pend, State.sem, hb, Semaphore_pend, bind, Except.bind]
    | true =>
      left
      cases hinfo : s.ledSrvTaskEnv with
      | none => exact absurd hinfo (henv rfl)
      | some info =>
        have htr := ledSrvTaskHandler_eq s (.binary false) info (by rw [hb]; rfl) hinfo
        rw [ledToggle_frame] at htr
        exact ⟨_, htr, ⟨false, rfl, fun hc => by cases hc⟩, hmx⟩

theorem mailboxInv_runLedOps (ops : List LedOp) :
    ∀ s, MailboxInv s →
      (∃ states, runLedOps ops s = .ok states ∧ ∀ s' ∈ states, MailboxInv s') ∨
        runLedOps ops s = .error (.blocked .ledSrvSchedSem) := by
  induction ops with
  | nil => intro s _; exact Or.inl ⟨[], rfl, by simp⟩
  | cons op rest ih =>
    intro s h
    rcases mailboxInv_doLedOp h op with ⟨s1, h1, hinv1⟩ | hb
    · rcases ih s1 hinv1 with ⟨states, hrun, hall⟩ | hb
      · refine Or.inl ⟨s1 :: states, by simp [runLedOps, h1, hrun], ?_⟩
        intro s' hs'
        rcases List.mem_cons.1 hs' with rfl | hs'
        · exact hinv1
        · exact hall s' hs'
      · exact Or.inr (by simp [runLedOps, h1, hb])
    · exact Or.inr (by simp [runLedOps, hb])

theorem mailboxInv_main (N : Nat) : MailboxInv (main N) := by
  rw [main_eq]
  exact ⟨⟨false, rfl, fun hc => by cases hc⟩, by simp [Semaphore.count]⟩

/-! ## Sequences of buffer calls -/

/-- C1. FIFO order: when a sequence of insert_item / remove_item calls started in the
state main() leaves behind runs to completion, the values returned by the successful
remove_item calls are the values passed to the successful insert_item calls, in the
same order, truncated to the number of successful removes; when no inserted item is
EMPTY_SLOT_IND every call of the sequence returns TRUE, so every remove counts; and the
only way a sequence does not run to completion is a call that finds no permit on its
counting semaphore, that is a breach of the semaphore protocol. -/
theorem fifo_order (N : Nat) (hN : 0 < N) (hmax : (N : Int) ≤ INT_MAX) (calls : List Call)
    (x : Int) :
    (∀ steps, runCalls N calls (main N) x = .ok steps →
      removedValues steps = (insertedValues steps).take (removedValues steps).length ∧
      ((∀ item, Call.insert item ∈ calls → item ≠ EMPTY_SLOT_IND) →
        ∀ st ∈ steps, st.ret = true)) ∧
    (∀ e, runCalls N calls (main N) x = .error e →
      e = .blocked .emptySlots ∨ e = .blocked .fullSlots) := by
  rcases queueInv_runCalls hmax calls (main N) x [] (queueInv_main N hN) with
    ⟨steps, q', hrun, hq, hall⟩ | hb | hb
  · rw [hrun]
    refine ⟨fun steps' h => ?_, fun e h => by cases h⟩
    cases h
    simp only [List.nil_append] at hq
    refine ⟨by rw [hq]; simp, fun hitems st hst => ?_⟩
    by_contra hret
    rcases (hall st hst).2 (by simpa using hret) with h1 | h1
    · cases h1
    · exact hitems _ h1 rfl
  · rw [hb]
    exact ⟨fun _ h => (by cases h), fun e h => (by cases h; exact Or.inl rfl)⟩
  · rw [hb]
    exact ⟨fun _ h => (by cases h), fun e h => (by cases h; exact Or.inr rfl)⟩

/-- C1 with BUFFER_SIZE = 10: inserts of 3, 7, 1 followed by three removes return
3, 7, 1 in that order. -/
theorem fifo_order_witness :
    ∃ steps, runCalls BUFFER_SIZE
        [.insert 3, .insert 7, .insert 1, .remove, .remove, .remove]
        (main BUFFER_SIZE) 0 = .ok steps ∧
      insertedValues steps = [3, 7, 1] ∧ removedValues steps = [3, 7, 1] ∧
      removedValues steps = (insertedValues steps).take (removedValues steps).length :=
  ⟨_, rfl, rfl, rfl,
    ((fifo_order BUFFER_SIZE (by decide) (by decide)
      [.insert 3, .insert 7, .insert 1, .remove, .remove, .remove] 0).1 _ rfl).1⟩

/-- C2, as stated, fails: after insert_item(EMPTY_SLOT_IND) on the initial state of a
buffer of 10 slots count is 1 while no slot differs from EMPTY_SLOT_IND. -/
theorem occupancy_any_item_counterexample :
    ∃ steps, runCalls BUFFER_SIZE [.insert EMPTY_SLOT_IND] (main BUFFER_SIZE) 0 = .ok steps ∧
      steps.map (fun st => (st.ret, st.after.count, occupiedSlots st.after.buffer))
        = [(true, 1, 0)] :=
  ⟨_, rfl, rfl⟩

/-- C2, amended. In a sequence of insert_item / remove_item calls started in the state
main() leaves behind and run to completion, after each call 0 <= count <= BUFFER_SIZE,
and when no inserted item is EMPTY_SLOT_IND count equals the number of slots that differ
from EMPTY_SLOT_IND; the only way a sequence does not run to completion is a call that
finds no permit on its counting semaphore. -/
theorem occupancy_invariant (N : Nat) (hN : 0 < N) (hmax : (N : Int) ≤ INT_MAX)
    (calls : List Call) (x : Int) :
    (∀ steps, runCalls N calls (main N) x = .ok steps →
      ∀ st ∈ steps, 0 ≤ st.after.count ∧ st.after.count ≤ N ∧
        ((∀ item, Call.insert item ∈ calls → item ≠ EMPTY_SLOT_IND) →
          st.after.count = occupiedSlots st.after.buffer)) ∧
    (∀ e, runCalls N calls (main N) x = .error e →
      e = .blocked .emptySlots ∨ e = .blocked .fullSlots) := by
  rcases queueInv_runCalls hmax calls (main N) x [] (queueInv_main N hN) with
    ⟨steps, q', hrun, _, hall⟩ | hb | hb
  · rw [hrun]
    refine ⟨fun steps' h => ?_, fun e h => by cases h⟩
    cases h
    intro st hst
    obtain ⟨⟨q, hinv, hmem⟩, _⟩ := hall st hst
    refine ⟨?_, ?_, fun hitems => ?_⟩
    · rw [hinv.count_eq]; exact Int.natCast_nonneg _
    · rw [hinv.count_eq]; exact_mod_cast hinv.le
    · rw [hinv.count_eq, hinv.occ]
      congr 1
      symm
      rw [List.countP_eq_length]
      intro v hv
      rcases hmem v hv with h1 | h1
      · cases h1
      · simpa using hitems v h1
  · rw [hb]
    exact ⟨fun _ h => (by cases h), fun e h => (by cases h; exact Or.inl rfl)⟩
  · rw [hb]
    exact ⟨fun _ h => (by cases h), fun e h => (by cases h; exact Or.inr rfl)⟩

/-- C2, amended, with BUFFER_SIZE = 10: inserts of 3, 7, 1 followed by three removes
give the count sequence 1, 2, 3, 2, 1, 0, each equal to the number of occupied slots. -/
theorem occupancy_invariant_witness :
    ∃ steps, runCalls BUFFER_SIZE
        [.insert 3, .insert 7, .insert 1, .remove, .remove, .remove]
        (main BUFFER_SIZE) 0 = .ok steps ∧
      steps.map (fun st => st.after.count) = [1, 2, 3, 2, 1, 0] ∧
      ∀ st ∈ steps, 0 ≤ st.after.count ∧ st.after.count ≤ BUFFER_SIZE ∧
        st.after.count = occupiedSlots st.after.buffer :=
  ⟨_, rfl, rfl, fun st hst =>
    have h := (occupancy_invariant BUFFER_SIZE (by decide) (by decide)
      [.insert 3, .insert 7, .insert 1, .remove, .remove, .remove] 0).1 _ rfl st hst
    ⟨h.1, h.2.1, h.2.2 (by
      intro item hi
      have h3 : item = 3 ∨ item = 7 ∨ item = 1 := by simpa using hi
      rcases h3 with rfl | rfl | rfl <;> decide)⟩⟩

/-- C3, as stated, fails for the item EMPTY_SLOT_IND: on the initial state of a buffer of
10 slots insert_item(EMPTY_SLOT_IND) returns TRUE, but the remove_item that follows
returns FALSE, leaves x as it was and leaves count at 1. -/
theorem round_trip_sentinel_counterexample :
    ∃ s1 s2, insert_item BUFFER_SIZE EMPTY_SLOT_IND (main BUFFER_SIZE) = .ok (true, s1) ∧
      remove_item BUFFER_SIZE 7 s1 = .ok (false, 7, s2) ∧ s2.count = 1 :=
  ⟨_, _, rfl, rfl, rfl⟩

/-- C3, amended. For every capacity N >= 1, every empty buffer state (all slots
EMPTY_SLOT_IND, count = 0, in = out with 0 <= in < N, emptySlots = N, fullSlots = 0, the
mutex free) and every item other than EMPTY_SLOT_IND, insert_item(item) followed by
remove_item(&x) makes both calls return TRUE, leaves x equal to item, count = 0 and
every slot EMPTY_SLOT_IND again, with in and out each advanced by one modulo N and the
permits back at N and 0. -/
theorem insert_then_remove_round_trip (N : Nat) (s : State) (item x : Int)
    (hN : 1 ≤ N) (hmax : (N : Int) ≤ INT_MAX)
    (hbuf : s.buffer = List.replicate N EMPTY_SLOT_IND) (hcount : s.count = 0)
    (hio : s.in_ = s.out) (hin0 : 0 ≤ s.in_) (hinN : s.in_ < N)
    (hempty : s.emptySlots = .counting N) (hfull : s.fullSlots = .counting 0)
    (hmutex : 0 < s.mutex.count)
    (hitem : item ≠ EMPTY_SLOT_IND) :
    ∃ s1 s2, insert_item N item s = .ok (true, s1) ∧
      remove_item N x s1 = .ok (true, item, s2) ∧
      s2.count = 0 ∧ s2.buffer = List.replicate N EMPTY_SLOT_IND ∧
      s2.in_ = (s.in_ + 1) % N ∧ s2.out = (s.out + 1) % N ∧
      s2.emptySlots = .counting N ∧ s2.fullSlots = .counting 0 := by
  obtain ⟨m, hm, _⟩ := pend_of_pos hmutex
  have hlt : s.in_.toNat < s.buffer.length := by rw [hbuf]; simp; omega
  have hslot : s.buffer[s.in_.toNat]? = some EMPTY_SLOT_IND := by
    rw [hbuf] at hlt ⊢
    rw [List.getElem?_eq_getElem hlt]; simp
  have he : Semaphore_pend s.emptySlots = some (.counting (N - 1)) := by
    rw [hempty]
    obtain ⟨k, rfl⟩ : ∃ k, N = k + 1 := ⟨N - 1, by omega⟩
    rfl
  have h1 := insert_item_success N item s _ m he hm hin0 hlt hslot
  have h2 := remove_item_success N x
    ({ s with
        count := wrapInt (s.count + 1)
        buffer := s.buffer.set s.in_.toNat item
        in_ := cMod (wrapInt (s.in_ + 1)) N
        emptySlots := .counting (N - 1)
        fullSlots := Semaphore_post s.fullSlots
        trace := s.trace ++ [.pend .emptySlots, .pend .mutex, .read .in_, .read .buffer,
          .read .count, .write .count, .read .in_, .write .buffer, .read .in_, .write .in_,
          .read .count,
          .Log_info2 "Produced item value = %u; Count = %u" item (wrapInt (s.count + 1)),
          .post .mutex, .post .fullSlots] } : State) (.counting 0) m item
    (by simp [hfull, Semaphore_post, Semaphore_pend]) hm
    (by show readBuf (s.buffer.set s.in_.toNat item) s.out = some item
        rw [← hio]; exact readBuf_set_same item hin0 hlt)
    hitem
  refine ⟨_, _, h1, h2, ?_, ?_, ?_, ?_, ?_, rfl⟩
  · show wrapInt (wrapInt (s.count + 1) - 1) = 0
    rw [hcount]; decide
  · show (s.buffer.set s.in_.toNat item).set s.out.toNat EMPTY_SLOT_IND = _
    rw [← hio, List.set_set, hbuf, List.set_replicate_self]
  · exact cursor_next hin0 hinN hmax
  · exact cursor_next (hio ▸ hin0) (hio ▸ hinN) hmax
  · show Semaphore_post (.counting (N - 1)) = _
    simp only [Semaphore_post, Semaphore.counting.injEq]
    omega

/-- C3, amended, at capacity 1 with both cursors at 0: insert_item(5) then remove_item
return TRUE, x is 5, the single slot is empty again and both cursors are back at 0. -/
theorem insert_then_remove_round_trip_witness :
    ∃ s1 s2, insert_item 1 5 (main 1) = .ok (true, s1) ∧
      remove_item 1 0 s1 = .ok (true, 5, s2) ∧
      s2.count = 0 ∧ s2.buffer = [-1] ∧ s2.in_ = 0 ∧ s2.out = 0 := by
  obtain ⟨s1, s2, h1, h2, hc, hb, hi, ho, _⟩ :=
    insert_then_remove_round_trip 1 (main 1) 5 0 (by decide) (by decide) rfl rfl rfl
      (by decide) (by decide) rfl rfl (by decide) (by decide)
  exact ⟨s1, s2, h1, h2, hc, hb, hi.trans (by decide), ho.trans (by decide)⟩

/-! ## Single buffer calls -/

/-- C4. insert_item on a state with 0 <= in < BUFFER_SIZE, an emptySlots permit and
the mutex available and buffer[in] == EMPTY_SLOT_IND returns TRUE; afterwards count is
the machine increment of the old count (the old count plus one unless the old count is
INT_MAX), buffer[in] holds item, in is (in + 1) mod BUFFER_SIZE, emptySlots has one
permit less, the counting semaphore fullSlots one more, the mutex is as before, and out
and every other slot are unchanged. -/
theorem insert_item_success_postcondition (N : Nat) (item : Int) (s : State) (f : Nat)
    (hmax : (N : Int) ≤ INT_MAX)
    (hin0 : 0 ≤ s.in_) (hinN : s.in_ < N)
    (hempty : 0 < s.emptySlots.count) (hmutex : 0 < s.mutex.count)
    (hfull : s.fullSlots = .counting f)
    (hslot : readBuf s.buffer s.in_ = some EMPTY_SLOT_IND) :
    ∃ s', insert_item N item s = .ok (true, s') ∧
      s'.count = wrapInt (s.count + 1) ∧
      (INT_MIN ≤ s.count → s.count < INT_MAX → s'.count = s.count + 1) ∧
      readBuf s'.buffer s.in_ = some item ∧
      s'.in_ = (s.in_ + 1) % N ∧
      s'.emptySlots.count = s.emptySlots.count - 1 ∧
      s'.fullSlots.count = s.fullSlots.count + 1 ∧
      s'.mutex = s.mutex ∧
      s'.out = s.out ∧
      s'.buffer.length = s.buffer.length ∧
      ∀ j : Int, j ≠ s.in_ → readBuf s'.buffer j = readBuf s.buffer j := by
  obtain ⟨e, he, hec⟩ := pend_of_pos hempty
  obtain ⟨m, hm, _⟩ := pend_of_pos hmutex
  obtain ⟨h0, hlt, hget⟩ := readBuf_eq_some hslot
  refine ⟨_, insert_item_success N item s e m he hm h0 hlt hget, rfl, ?_, ?_, ?_, hec, ?_,
    rfl, rfl, ?_, ?_⟩
  · intro h1 h2
    exact wrapInt_of_range (by omega) (by omega)
  · exact readBuf_set_same item h0 hlt
  · exact cursor_next hin0 hinN hmax
  · simp [hfull, Semaphore_post, Semaphore.count]
  · simp
  · intro j hj
    exact readBuf_set_other item h0 hj

/-- C4 at the initial state of a buffer of 10 slots: insert_item(3) returns TRUE, count
becomes 1, slot 0 holds 3 and in becomes 1. -/
theorem insert_item_success_postcondition_witness :
    ∃ s', insert_item 10 3 (main 10) = .ok (true, s') ∧ s'.count = 1 ∧
      readBuf s'.buffer 0 = some 3 ∧ s'.in_ = 1 ∧ s'.emptySlots.count = 9 ∧
      s'.fullSlots.count = 1 := by
  obtain ⟨s', h, _, hc, hb, hi, he, hf, _⟩ :=
    insert_item_success_postcondition 10 3 (main 10) 0 (by decide) (by decide) (by decide)
      (by decide) (by decide) rfl (by decide)
  exact ⟨s', h, (hc (by decide) (by decide)).trans (by decide), hb, hi.trans (by decide),
    he.trans (by decide), hf.trans (by decide)⟩

/-- C5. remove_item on a state with 0 <= out < BUFFER_SIZE, a fullSlots permit and the
mutex available and buffer[out] != EMPTY_SLOT_IND returns TRUE with the old buffer[out]
in x; afterwards count is the machine decrement of the old count (the old count minus
one unless the old count is INT_MIN), buffer[out] is EMPTY_SLOT_IND, out is
(out + 1) mod BUFFER_SIZE, fullSlots has one permit less, the counting semaphore
emptySlots one more, the mutex is as before, and in and every other slot are
unchanged. -/
theorem remove_item_success_postcondition (N : Nat) (x : Int) (s : State) (e : Nat) (v : Int)
    (hmax : (N : Int) ≤ INT_MAX)
    (hout0 : 0 ≤ s.out) (houtN : s.out < N)
    (hfull : 0 < s.fullSlots.count) (hmutex : 0 < s.mutex.count)
    (hempty : s.emptySlots = .counting e)
    (hslot : readBuf s.buffer s.out = some v) (hv : v ≠ EMPTY_SLOT_IND) :
    ∃ s', remove_item N x s = .ok (true, v, s') ∧
      s'.count = wrapInt (s.count - 1) ∧
      (INT_MIN < s.count → s.count ≤ INT_MAX → s'.count = s.count - 1) ∧
      readBuf s'.buffer s.out = some EMPTY_SLOT_IND ∧
      s'.out = (s.out + 1) % N ∧
      s'.fullSlots.count = s.fullSlots.count - 1 ∧
      s'.emptySlots.count = s.emptySlots.count + 1 ∧
      s'.mutex = s.mutex ∧
      s'.in_ = s.in_ ∧
      s'.buffer.length = s.buffer.length ∧
      ∀ j : Int, j ≠ s.out → readBuf s'.buffer j = readBuf s.buffer j := by
  obtain ⟨f, hf, hfc⟩ := pend_of_pos hfull
  obtain ⟨m, hm, _⟩ := pend_of_pos hmutex
  obtain ⟨h0, hlt, _⟩ := readBuf_eq_some hslot
  refine ⟨_, remove_item_success N x s f m v hf hm hslot hv, rfl, ?_, ?_, ?_, hfc, ?_,
    rfl, rfl, ?_, ?_⟩
  · intro h1 h2
    exact wrapInt_of_range (by omega) (by omega)
  · exact readBuf_set_same _ h0 hlt
  · exact cursor_next hout0 houtN hmax
  · simp [hempty, Semaphore_post, Semaphore.count]
  · simp
  · intro j hj
    exact readBuf_set_other _ h0 hj

/-- C5 on a buffer of 10 slots holding 3 in slot 0: remove_item returns TRUE and 3,
count goes from 1 to 0, slot 0 is EMPTY_SLOT_IND again and out becomes 1. -/
theorem remove_item_success_postcondition_witness :
    ∃ s', remove_item 10 0
        { main 10 with buffer := [3, -1, -1, -1, -1, -1, -1, -1, -1, -1], in_ := 1,
                       count := 1, fullSlots := .counting 1, emptySlots := .counting 9 }
        = .ok (true, 3, s') ∧
      s'.count = 0 ∧ readBuf s'.buffer 0 = some (-1) ∧ s'.out = 1 ∧
      s'.fullSlots.count = 0 ∧ s'.emptySlots.count = 10 := by
  obtain ⟨s', h, _, hc, hb, ho, hf, he, _⟩ :=
    remove_item_success_postcondition 10 0
      { main 10 with buffer := [3, -1, -1, -1, -1, -1, -1, -1, -1, -1], in_ := 1,
                     count := 1, fullSlots := .counting 1, emptySlots := .counting 9 }
      9 3 (by decide) (by decide) (by decide) (by decide) (by decide) rfl (by decide)
      (by decide)
  exact ⟨s', h, (hc (by decide) (by decide)).trans (by decide), hb, ho.trans (by decide),
    hf.trans (by decide), he.trans (by decide)⟩

/-- C6. When an emptySlots permit and the mutex are available but buffer[in] is not
EMPTY_SLOT_IND, insert_item(item) returns FALSE; the only operations it performs are the
two pends, the read of buffer[in], one Log_info1 diagnostic carrying item and the two
posts, and the state after the call equals the state before it in buffer, in, out,
count and all semaphores. -/
theorem insert_item_failure_atomic (N : Nat) (item : Int) (s : State) (v : Int)
    (hempty : 0 < s.emptySlots.count) (hmutex : 0 < s.mutex.count)
    (hslot : readBuf s.buffer s.in_ = some v) (hv : v ≠ EMPTY_SLOT_IND) :
    ∃ s', insert_item N item s = .ok (false, s') ∧
      s'.trace = s.trace ++ [.pend .emptySlots, .pend .mutex, .read .in_, .read .buffer,
          .Log_info1 "insert_item:: Error, could not insert item %u!" item,
          .post .mutex, .post .emptySlots] ∧
      s'.buffer = s.buffer ∧ s'.in_ = s.in_ ∧ s'.out = s.out ∧ s'.count = s.count ∧
      s'.emptySlots = s.emptySlots ∧ s'.fullSlots = s.fullSlots ∧ s'.mutex = s.mutex := by
  obtain ⟨e, he, _⟩ := pend_of_pos hempty
  obtain ⟨m, hm, _⟩ := pend_of_pos hmutex
  exact ⟨_, insert_item_failure N item s e m v he hm hslot hv, rfl, rfl, rfl, rfl, rfl, rfl,
    rfl, rfl⟩

/-- C6 on a buffer of 10 slots whose slot 0 was overwritten with 5: insert_item(7)
returns FALSE, logs 7, and count and the permits are as before. -/
theorem insert_item_failure_atomic_witness :
    ∃ s', insert_item 10 7 { main 10 with buffer := [5, -1, -1, -1, -1, -1, -1, -1, -1, -1] }
        = .ok (false, s') ∧
      s'.trace = [.pend .emptySlots, .pend .mutex, .read .in_, .read .buffer,
          .Log_info1 "insert_item:: Error, could not insert item %u!" 7,
          .post .mutex, .post .emptySlots] ∧
      s'.buffer = [5, -1, -1, -1, -1, -1, -1, -1, -1, -1] ∧ s'.count = 0 ∧
      s'.emptySlots = .counting 10 := by
  obtain ⟨s', h, ht, hb, _, _, hc, he, _⟩ :=
    insert_item_failure_atomic 10 7
      { main 10 with buffer := [5, -1, -1, -1, -1, -1, -1, -1, -1, -1] } 5
      (by decide) (by decide) (by decide) (by decide)
  exact ⟨s', h, ht, hb, hc, he⟩

/-- C7. When a fullSlots permit and the mutex are available but buffer[out] is
EMPTY_SLOT_IND, remove_item(&x) returns FALSE and leaves x as it was; the only
operations it performs are the two pends, the read of buffer[out], one Log_info1
diagnostic and the two posts, and the state after the call equals the state before it
in buffer, in, out, count and all semaphores. -/
theorem remove_item_failure_atomic (N : Nat) (x : Int) (s : State)
    (hfull : 0 < s.fullSlots.count) (hmutex : 0 < s.mutex.count)
    (hslot : readBuf s.buffer s.out = some EMPTY_SLOT_IND) :
    ∃ s', remove_item N x s = .ok (false, x, s') ∧
      s'.trace = s.trace ++ [.pend .fullSlots, .pend .mutex, .read .out, .read .buffer,
          .Log_info1 "remove_item:: Error, could not consume item %u!" x,
          .post .mutex, .post .fullSlots] ∧
      s'.buffer = s.buffer ∧ s'.in_ = s.in_ ∧ s'.out = s.out ∧ s'.count = s.count ∧
      s'.fullSlots = s.fullSlots ∧ s'.emptySlots = s.emptySlots ∧ s'.mutex = s.mutex := by
  obtain ⟨f, hf, _⟩ := pend_of_pos hfull
  obtain ⟨m, hm, _⟩ := pend_of_pos hmutex
  exact ⟨_, remove_item_failure N x s f m hf hm hslot, rfl, rfl, rfl, rfl, rfl, rfl, rfl, rfl⟩

/-- C7 on an empty buffer of 10 slots with a stray fullSlots permit: remove_item(&x)
with x = 42 returns FALSE, x stays 42, and count and the permits are as before. -/
theorem remove_item_failure_atomic_witness :
    ∃ s', remove_item 10 42 { main 10 with fullSlots := .counting 1 } = .ok (false, 42, s') ∧
      s'.buffer = List.replicate 10 (-1) ∧ s'.count = 0 ∧ s'.fullSlots = .counting 1 ∧
      s'.emptySlots = .counting 10 := by
  obtain ⟨s', h, _, hb, _, _, hc, hf, he, _⟩ :=
    remove_item_failure_atomic 10 42 { main 10 with fullSlots := .counting 1 }
      (by decide) (by decide) (by decide)
  exact ⟨s', h, hb.trans (by decide), hc, hf, he⟩

/-! ## Permits -/

/-- C8. Permits match occupancy: in the state main() leaves behind and after every call
of a sequence of insert_item / remove_item calls (any items, successful or failed) run
to completion from it, fullSlots = count and emptySlots = BUFFER_SIZE - count, insert_item
gets past its emptySlots pend exactly when count < BUFFER_SIZE, and remove_item gets past
its fullSlots pend exactly when count > 0; the only way a sequence does not run to
completion is a call that finds no permit on its counting semaphore. -/
theorem permits_match_occupancy (N : Nat) (hN : 0 < N) (hmax : (N : Int) ≤ INT_MAX)
    (calls : List Call) (x : Int) :
    (∀ steps, runCalls N calls (main N) x = .ok steps →
      ∀ s ∈ main N :: steps.map (fun st => st.after),
        (s.fullSlots.count : Int) = s.count ∧
        (s.emptySlots.count : Int) = N - s.count ∧
        (∀ item, insert_item N item s ≠ .error (.blocked .emptySlots) ↔ s.count < N) ∧
        (∀ y, remove_item N y s ≠ .error (.blocked .fullSlots) ↔ 0 < s.count)) ∧
    (∀ e, runCalls N calls (main N) x = .error e →
      e = .blocked .emptySlots ∨ e = .blocked .fullSlots) := by
  have key : ∀ (s : State) (q : List Int), QueueInv N s q →
      (s.fullSlots.count : Int) = s.count ∧
      (s.emptySlots.count : Int) = N - s.count ∧
      (∀ item, insert_item N item s ≠ .error (.blocked .emptySlots) ↔ s.count < N) ∧
      (∀ y, remove_item N y s ≠ .error (.blocked .fullSlots) ↔ 0 < s.count) := by
    intro s q h
    have hle := h.le
    refine ⟨?_, ?_, fun item => ?_, fun y => ?_⟩
    · rw [h.full, h.count_eq]; rfl
    · rw [h.empty, h.count_eq]; simp only [Semaphore.count]; omega
    · rw [h.count_eq]
      constructor
      · intro hne
        by_contra hge
        exact hne (insert_item_blocked N item s (by
          rw [h.empty]; simp only [Semaphore.count]; omega))
      · intro hlt
        obtain ⟨s', hs', _⟩ := queueInv_insert h hmax (by exact_mod_cast hlt) item
        rw [hs']; exact fun hc => by cases hc
    · rw [h.count_eq]
      constructor
      · intro hne
        by_contra hge
        exact hne (remove_item_blocked N y s (by
          rw [h.full]; simp only [Semaphore.count]; omega))
      · intro hpos
        cases q with
        | nil => simp at hpos
        | cons v q' =>
          by_cases hv : v = EMPTY_SLOT_IND
          · subst hv
            obtain ⟨s', hs', _⟩ := queueInv_remove_failure h y
            rw [hs']; exact fun hc => by cases hc
          · obtain ⟨s', hs', _⟩ := queueInv_remove_success h hmax hv y
            rw [hs']; exact fun hc => by cases hc
  rcases queueInv_runCalls hmax calls (main N) x [] (queueInv_main N hN) with
    ⟨steps, q', hrun, _, hall⟩ | hb | hb
  · rw [hrun]
    refine ⟨fun steps' h => ?_, fun e h => by cases h⟩
    cases h
    intro s hs
    rcases List.mem_cons.1 hs with rfl | hs
    · exact key _ [] (queueInv_main N hN)
    · obtain ⟨st, hst, rfl⟩ := List.mem_map.1 hs
      obtain ⟨⟨q, hinv, _⟩, _⟩ := hall st hst
      exact key _ q hinv
  · rw [hb]
    exact ⟨fun _ h => (by cases h), fun e h => (by cases h; exact Or.inl rfl)⟩
  · rw [hb]
    exact ⟨fun _ h => (by cases h), fun e h => (by cases h; exact Or.inr rfl)⟩

/-- C8 with BUFFER_SIZE = 2: after inserting 5 and 9 emptySlots is 0 and a third insert
does not get past its pend; after one remove, which returns 5, insert_item(4) succeeds
and the next two removes return 9 and then 4, with the permits equal to count and
2 - count after every call. -/
theorem permits_match_occupancy_witness :
    (∃ steps, runCalls 2 [.insert 5, .insert 9] (main 2) 0 = .ok steps ∧
      steps.map (fun st => st.after.emptySlots.count) = [1, 0]) ∧
    runCalls 2 [.insert 5, .insert 9, .insert 4] (main 2) 0
      = .error (.blocked .emptySlots) ∧
    ∃ steps, runCalls 2 [.insert 5, .insert 9, .remove, .insert 4, .remove, .remove]
        (main 2) 0 = .ok steps ∧
      steps.map (fun st => st.ret) = [true, true, true, true, true, true] ∧
      removedValues steps = [5, 9, 4] ∧
      ∀ s ∈ main 2 :: steps.map (fun st => st.after),
        (s.fullSlots.count : Int) = s.count ∧ (s.emptySlots.count : Int) = (2 : Nat) - s.count :=
  ⟨⟨_, rfl, rfl⟩, rfl, _, rfl, rfl, rfl, fun s hs =>
    have h := (permits_match_occupancy 2 (by decide) (by decide)
      [.insert 5, .insert 9, .remove, .insert 4, .remove, .remove] 0).1 _ rfl s hs
    ⟨h.1, h.2.1⟩⟩

/-! ## Mailbox -/

/-- C9. prepForLedSrv(r) on any state in which setLedEnvMutex is available returns,
leaves r in the environment of ledSrvTask whatever was there before, performs exactly
one Semaphore_post on ledSrvSchedSem and leaves setLedEnvMutex as it found it; so two
publishes of r1 and then r2 with no consume in between leave exactly r2 in the mailbox
and add two posts of the doorbell, one per publish. -/
theorem prepForLedSrv_overwrites_and_rings_once (r1 r2 : LedBlinksInfo_T) (s : State)
    (hmutex : 0 < s.setLedEnvMutex.count) :
    ∃ s1 s2, prepForLedSrv r1 s = .ok s1 ∧
      s1.ledSrvTaskEnv = some r1 ∧
      s1.ledSrvSchedSem = Semaphore_post s.ledSrvSchedSem ∧
      s1.trace = s.trace ++ [.pend .setLedEnvMutex, .setEnv r1, .post .ledSrvSchedSem,
          .post .setLedEnvMutex] ∧
      postCount .ledSrvSchedSem s1.trace = postCount .ledSrvSchedSem s.trace + 1 ∧
      s1.setLedEnvMutex = s.setLedEnvMutex ∧
      prepForLedSrv r2 s1 = .ok s2 ∧
      s2.ledSrvTaskEnv = some r2 ∧
      s2.ledSrvSchedSem = Semaphore_post (Semaphore_post s.ledSrvSchedSem) ∧
      postCount .ledSrvSchedSem s2.trace = postCount .ledSrvSchedSem s.trace + 2 ∧
      s2.setLedEnvMutex = s.setLedEnvMutex := by
  obtain ⟨m, hm, _⟩ := pend_of_pos hmutex
  have h1 := prepForLedSrv_eq r1 s m hm
  have h2 := prepForLedSrv_eq r2
    ({ s with
        ledSrvTaskEnv := some r1
        ledSrvSchedSem := Semaphore_post s.ledSrvSchedSem
        trace := s.trace ++ [.pend .setLedEnvMutex, .setEnv r1, .post .ledSrvSchedSem,
          .post .setLedEnvMutex] } : State) m hm
  refine ⟨_, _, h1, rfl, rfl, rfl, ?_, rfl, h2, rfl, rfl, ?_, rfl⟩
  · simp [postCount, List.count_cons]
  · simp [postCount, List.count_cons]

/-- C9 on the state main() leaves behind: publishing green with 3 blinks and then red
with 7 blinks leaves the red request with 7 blinks in the mailbox after two posts of
the doorbell. -/
theorem prepForLedSrv_overwrites_and_rings_once_witness :
    ∃ s1 s2, prepForLedSrv ⟨.green_e, 3⟩ (main 10) = .ok s1 ∧
      s1.ledSrvTaskEnv = some ⟨.green_e, 3⟩ ∧
      prepForLedSrv ⟨.red_e, 7⟩ s1 = .ok s2 ∧
      s2.ledSrvTaskEnv = some ⟨.red_e, 7⟩ ∧
      postCount .ledSrvSchedSem s2.trace = 2 ∧
      s2.setLedEnvMutex = .binary true := by
  obtain ⟨s1, s2, h1, he1, _, _, _, _, h2, he2, _, hp, hm⟩ :=
    prepForLedSrv_overwrites_and_rings_once ⟨.green_e, 3⟩ ⟨.red_e, 7⟩ (main 10) (by decide)
  exact ⟨s1, s2, h1, he1, h2, he2, hp, hm⟩

/-- C10. With the doorbell ledSrvSchedSem created as a binary semaphore with count 0,
in the state main() leaves behind and after every operation of any sequence of
prepForLedSrv publishes and rounds of ledSrvTaskHandler run to completion from it, the
count of ledSrvSchedSem is at most 1; the only way such a sequence does not run to
completion is a round of ledSrvTaskHandler that finds the doorbell at 0. -/
theorem doorbell_count_le_one (N : Nat) (ops : List LedOp) :
    (∀ states, runLedOps ops (main N) = .ok states →
      ∀ s ∈ main N :: states, s.ledSrvSchedSem.count ≤ 1) ∧
    (∀ e, runLedOps ops (main N) = .error e → e = .blocked .ledSrvSchedSem) := by
  have key : ∀ s, MailboxInv s → s.ledSrvSchedSem.count ≤ 1 := by
    intro s h
    obtain ⟨⟨b, hb, _⟩, _⟩ := h
    rw [hb]
    cases b <;> simp [Semaphore.count]
  rcases mailboxInv_runLedOps ops (main N) (mailboxInv_main N) with ⟨states, hrun, hall⟩ | hb
  · rw [hrun]
    refine ⟨fun states' h => ?_, fun e h => by cases h⟩
    cases h
    intro s hs
    rcases List.mem_cons.1 hs with rfl | hs
    · exact key _ (mailboxInv_main N)
    · exact key _ (hall s hs)
  · rw [hb]
    exact ⟨fun _ h => (by cases h), fun e h => (by cases h; rfl)⟩

/-- C10 on a run of two publishes, one round of ledSrvTaskHandler and one more publish:
the doorbell count is 1, 1, 0, 1 after the four operations. -/
theorem doorbell_count_le_one_witness :
    ∃ states, runLedOps [.publish ⟨.green_e, 2⟩, .publish ⟨.red_e, 1⟩, .consume,
        .publish ⟨.red_e, 1⟩] (main 10) = .ok states ∧
      states.map (fun s => s.ledSrvSchedSem.count) = [1, 1, 0, 1] ∧
      ∀ s ∈ main 10 :: states, s.ledSrvSchedSem.count ≤ 1 :=
  ⟨_, rfl, rfl,
    (doorbell_count_le_one 10 [.publish ⟨.green_e, 2⟩, .publish ⟨.red_e, 1⟩, .consume,
      .publish ⟨.red_e, 1⟩]).1 _ rfl⟩

/-- With a counting doorbell in place of the binary one the count is not bounded by 1:
two publishes with no round of ledSrvTaskHandler in between leave the count at 2. -/
theorem counting_doorbell_reaches_two :
    ∃ states, runLedOps [.publish ⟨.green_e, 3⟩, .publish ⟨.red_e, 7⟩]
        { main 10 with ledSrvSchedSem := .counting 0 } = .ok states ∧
      states.map (fun s => s.ledSrvSchedSem.count) = [1, 2] :=
  ⟨_, rfl, rfl⟩

/-! ## LED burst and produced values -/

theorem ledToggleLoop_eq (p q : Nat) (n : Nat) (s : State) :
    ledToggleLoop p q n s = { s with trace := s.trace ++ burst p q n } := by
  induction n generalizing s with
  | zero => simp [ledToggleLoop, burst]
  | succ k ih =>
    rw [ledToggleLoop, ih]
    simp [delay, GPIO_toggleOutputOnPin, State.emit, burst]

theorem burst_count_toggle (p q : Nat) (n : Nat) :
    (burst p q n).count (.toggle p q) = n := by
  induction n with
  | zero => rfl
  | succ k ih => simp [burst, List.count_cons, ih]

theorem burst_count_delay (p q : Nat) (n : Nat) :
    (burst p q n).count .delay = n := by
  induction n with
  | zero => rfl
  | succ k ih => simp [burst, List.count_cons, ih]

theorem burst_length (p q : Nat) (n : Nat) : (burst p q n).length = 2 * n := by
  induction n with
  | zero => rfl
  | succ k ih => simp [burst, ih]; omega

theorem burst_getElem (p q : Nat) (n : Nat) (i : Nat) (hi : i < n) :
    (burst p q n)[2 * i]? = some (.toggle p q) ∧ (burst p q n)[2 * i + 1]? = some .delay := by
  induction n generalizing i with
  | zero => omega
  | succ k ih =>
    cases i with
    | zero => simp [burst]
    | succ j =>
      have := ih j (by omega)
      have e1 : 2 * (j + 1) = (2 * j + 1) + 1 := by omega
      rw [e1]
      simpa [burst] using this

/-- C11, as stated, fails: Int has 16 bits, so for times = 16384 the shift times <<= 1
yields -32768 and ledToggle returns without a single toggle or delay. -/
theorem ledToggle_overflow_counterexample :
    (0 : Int) ≤ 16384 ∧ cShl1 16384 = -32768 ∧
      ledToggle RED 16384 (main BUFFER_SIZE) = main BUFFER_SIZE ∧
      (ledToggle RED 16384 (main BUFFER_SIZE)).trace.count (.toggle RED.1 RED.2) = 0 := by
  decide

/-- C11, amended. For every times with 0 <= times and 2 x times <= INT_MAX,
ledToggle(port, pins, times) returns a state that differs from the one it started in
only by 2 x times rounds of operations appended to the trace, each round one toggle of
the selected pin followed by one delay(); so there are exactly 2 x times toggles and
2 x times delays and no other operation. -/
theorem ledToggle_burst (led : Nat × Nat) (times : Int) (s : State)
    (h0 : 0 ≤ times) (hmax : 2 * times ≤ INT_MAX) :
    ledToggle led times s
        = { s with trace := s.trace ++ burst led.1 led.2 (2 * times).toNat } ∧
      (burst led.1 led.2 (2 * times).toNat).count (.toggle led.1 led.2) = (2 * times).toNat ∧
      (burst led.1 led.2 (2 * times).toNat).count .delay = (2 * times).toNat ∧
      (burst led.1 led.2 (2 * times).toNat).length = 2 * (2 * times).toNat ∧
      ∀ i, i < (2 * times).toNat →
        (burst led.1 led.2 (2 * times).toNat)[2 * i]? = some (.toggle led.1 led.2) ∧
        (burst led.1 led.2 (2 * times).toNat)[2 * i + 1]? = some .delay := by
  have hmax' : 2 * times ≤ 32767 := hmax
  have hw : cShl1 times = 2 * times := by unfold cShl1 wrapInt; omega
  refine ⟨?_, burst_count_toggle _ _ _, burst_count_delay _ _ _, burst_length _ _ _,
    fun i hi => burst_getElem _ _ _ i hi⟩
  unfold ledToggle
  simp only [hw]
  exact ledToggleLoop_eq _ _ _ s

/-- C11, amended, for three blinks of the red LED: six toggles of port 1 pin 1, each
followed by a delay. -/
theorem ledToggle_burst_witness :
    (ledToggle RED 3 (main BUFFER_SIZE)).trace
        = [.toggle 1 1, .delay, .toggle 1 1, .delay, .toggle 1 1, .delay,
           .toggle 1 1, .delay, .toggle 1 1, .delay, .toggle 1 1, .delay] ∧
      (burst RED.1 RED.2 (2 * (3 : Int)).toNat).count (.toggle RED.1 RED.2) = 6 ∧
      (burst RED.1 RED.2 (2 * (3 : Int)).toNat).count .delay = 6 := by
  obtain ⟨h, ht, hd, _⟩ := ledToggle_burst RED 3 (main BUFFER_SIZE) (by decide) (by decide)
  exact ⟨by rw [h]; rfl, ht, hd⟩

/-- C13. For every non-negative result of rand() the item computed by producerHandler,
rand() % (MAX_VAL_NUM - MIN_VAL_NUM + 1) + MIN_VAL_NUM, lies between MIN_VAL_NUM (1) and
MAX_VAL_NUM (10); it is non-negative and differs from EMPTY_SLOT_IND. -/
theorem prodItem_in_range (randVal : Int) (h : 0 ≤ randVal) :
    MIN_VAL_NUM ≤ prodItem randVal ∧ prodItem randVal ≤ MAX_VAL_NUM ∧
      0 ≤ prodItem randVal ∧ prodItem randVal ≠ EMPTY_SLOT_IND ∧
      prodItem randVal = randVal % 10 + 1 := by
  have hk : cAdd (cSub MAX_VAL_NUM MIN_VAL_NUM) 1 = 10 := by decide
  have hm : Int.tmod randVal 10 = randVal % 10 := Int.tmod_eq_emod h (by decide)
  have hp : prodItem randVal = randVal % 10 + 1 := by
    unfold prodItem
    rw [hk]
    unfold cAdd cMod MIN_VAL_NUM
    rw [hm]
    unfold wrapInt
    omega
  rw [hp]
  unfold MIN_VAL_NUM MAX_VAL_NUM EMPTY_SLOT_IND
  omega

/-- C13 for rand() = 32767, the largest value of Int: the item is 8. -/
theorem prodItem_in_range_witness :
    prodItem 32767 = 8 ∧ MIN_VAL_NUM ≤ prodItem 32767 ∧ prodItem 32767 ≤ MAX_VAL_NUM :=
  have h := prodItem_in_range 32767 (by decide)
  ⟨h.2.2.2.2.trans (by decide), h.1, h.2.1⟩

/-! ## Every result of a single call -/

theorem insert_item_blocked_mutex (N : Nat) (item : Int) (s : State) (e : Semaphore)
    (he : Semaphore_pend s.emptySlots = some e) (hm : Semaphore_pend s.mutex = none) :
    insert_item N item s = .error (.blocked .mutex) := by
  simp [insert_item, pend, State.sem, State.setSem, State.emit, he, hm, bind, Except.bind]

theorem insert_item_outOfBounds (N : Nat) (item : Int) (s : State) (e m : Semaphore)
    (he : Semaphore_pend s.emptySlots = some e) (hm : Semaphore_pend s.mutex = some m)
    (hslot : readBuf s.buffer s.in_ = none) :
    insert_item N item s = .error .outOfBounds := by
  simp [insert_item, pend, State.sem, State.setSem, State.emit, he, hm, hslot, bind,
    Except.bind]

theorem remove_item_blocked_mutex (N : Nat) (x : Int) (s : State) (f : Semaphore)
    (hf : Semaphore_pend s.fullSlots = some f) (hm : Semaphore_pend s.mutex = none) :
    remove_item N x s = .error (.blocked .mutex) := by
  simp [remove_item, pend, State.sem, State.setSem, State.emit, hf, hm, bind, Except.bind]

theorem remove_item_outOfBounds (N : Nat) (x : Int) (s : State) (f m : Semaphore)
    (hf : Semaphore_pend s.fullSlots = some f) (hm : Semaphore_pend s.mutex = some m)
    (hslot : readBuf s.buffer s.out = none) :
    remove_item N x s = .error .outOfBounds := by
  simp [remove_item, pend, State.sem, State.setSem, State.emit, hf, hm, hslot, bind,
    Except.bind]

theorem insert_item_result (N : Nat) (item : Int) (s : State) :
    (∃ s', insert_item N item s = .ok (true, s') ∧
        0 < s.emptySlots.count ∧ 0 < s.mutex.count ∧
        readBuf s.buffer s.in_ = some EMPTY_SLOT_IND ∧
        s'.trace = s.trace ++ insertSuccessOps item s'.count ∧
        s'.ledSrvTaskEnv = s.ledSrvTaskEnv ∧ s'.ledSrvSchedSem = s.ledSrvSchedSem ∧
        s'.setLedEnvMutex = s.setLedEnvMutex) ∨
    (∃ s', insert_item N item s = .ok (false, s') ∧
        0 < s.emptySlots.count ∧ 0 < s.mutex.count ∧
        (∃ v, readBuf s.buffer s.in_ = some v ∧ v ≠ EMPTY_SLOT_IND) ∧
        s' = { s with trace := s.trace ++ insertFailureOps item }) ∨
    (insert_item N item s = .error (.blocked .emptySlots) ∧ s.emptySlots.count = 0) ∨
    (insert_item N item s = .error (.blocked .mutex) ∧ 0 < s.emptySlots.count ∧
        s.mutex.count = 0) ∨
    (insert_item N item s = .error .outOfBounds ∧ 0 < s.emptySlots.count ∧
        0 < s.mutex.count ∧ readBuf s.buffer s.in_ = none) := by
  cases he : Semaphore_pend s.emptySlots with
  | none =>
    have hc := (pend_eq_none_iff _).1 he
    exact Or.inr (Or.inr (Or.inl ⟨insert_item_blocked N item s hc, hc⟩))
  | some e =>
    have hep : 0 < s.emptySlots.count := by
      rcases Nat.eq_zero_or_pos s.emptySlots.count with h0 | h0
      · rw [(pend_eq_none_iff _).2 h0] at he; cases he
      · exact h0
    cases hm : Semaphore_pend s.mutex with
    | none =>
      exact Or.inr (Or.inr (Or.inr (Or.inl
        ⟨insert_item_blocked_mutex N item s e he hm, hep, (pend_eq_none_iff _).1 hm⟩)))
    | some m =>
      have hmp : 0 < s.mutex.count := by
        rcases Nat.eq_zero_or_pos s.mutex.count with h0 | h0
        · rw [(pend_eq_none_iff _).2 h0] at hm; cases hm
        · exact h0
      cases hr : readBuf s.buffer s.in_ with
      | none =>
        exact Or.inr (Or.inr (Or.inr (Or.inr
          ⟨insert_item_outOfBounds N item s e m he hm hr, hep, hmp, rfl⟩)))
      | some v =>
        by_cases hv : v = EMPTY_SLOT_IND
        · subst hv
          obtain ⟨h0, hlt, hget⟩ := readBuf_eq_some hr
          exact Or.inl ⟨_, insert_item_success N item s e m he hm h0 hlt hget, hep, hmp, rfl,
            rfl, rfl, rfl, rfl⟩
        · exact Or.inr (Or.inl ⟨_, insert_item_failure N item s e m v he hm hr hv, hep, hmp,
            ⟨v, rfl, hv⟩, rfl⟩)

theorem remove_item_result (N : Nat) (x : Int) (s : State) :
    (∃ v s', remove_item N x s = .ok (true, v, s') ∧
        0 < s.fullSlots.count ∧ 0 < s.mutex.count ∧
        readBuf s.buffer s.out = some v ∧ v ≠ EMPTY_SLOT_IND ∧
        s'.trace = s.trace ++ removeSuccessOps v s'.count ∧
        s'.ledSrvTaskEnv = s.ledSrvTaskEnv ∧ s'.ledSrvSchedSem = s.ledSrvSchedSem ∧
        s'.setLedEnvMutex = s.setLedEnvMutex) ∨
    (∃ s', remove_item N x s = .ok (false, x, s') ∧
        0 < s.fullSlots.count ∧ 0 < s.mutex.count ∧
        readBuf s.buffer s.out = some EMPTY_SLOT_IND ∧
        s' = { s with trace := s.trace ++ removeFailureOps x }) ∨
    (remove_item N x s = .error (.blocked .fullSlots) ∧ s.fullSlots.count = 0) ∨
    (remove_item N x s = .error (.blocked .mutex) ∧ 0 < s.fullSlots.count ∧
        s.mutex.count = 0) ∨
    (remove_item N x s = .error .outOfBounds ∧ 0 < s.fullSlots.count ∧
        0 < s.mutex.count ∧ readBuf s.buffer s.out = none) := by
  cases hf : Semaphore_pend s.fullSlots with
  | none =>
    have hc := (pend_eq_none_iff _).1 hf
    exact Or.inr (Or.inr (Or.inl ⟨remove_item_blocked N x s hc, hc⟩))
  | some f =>
    have hfp : 0 < s.fullSlots.count := by
      rcases Nat.eq_zero_or_pos s.fullSlots.count with h0 | h0
      · rw [(pend_eq_none_iff _).2 h0] at hf; cases hf
      · exact h0
    cases hm : Semaphore_pend s.mutex with
    | none =>
      exact Or.inr (Or.inr (Or.inr (Or.inl
        ⟨remove_item_blocked_mutex N x s f hf hm, hfp, (pend_eq_none_iff _).1 hm⟩)))
    | some m =>
      have hmp : 0 < s.mutex.count := by
        rcases Nat.eq_zero_or_pos s.mutex.count with h0 | h0
        · rw [(pend_eq_none_iff _).2 h0] at hm; cases hm
        · exact h0
      cases hr : readBuf s.buffer s.out with
      | none =>
        exact Or.inr (Or.inr (Or.inr (Or.inr
          ⟨remove_item_outOfBounds N x s f m hf hm hr, hfp, hmp, rfl⟩)))
      | some v =>
        by_cases hv : v = EMPTY_SLOT_IND
        · subst hv
          exact Or.inr (Or.inl ⟨_, remove_item_failure N x s f m hf hm hr, hfp, hmp, rfl,
            rfl⟩)
        · exact Or.inl ⟨v, _, remove_item_success N x s f m v hf hm hr hv, hfp, hmp, rfl, hv,
            rfl, rfl, rfl, rfl⟩

theorem producerHandler_success (N : Nat) (arg0 randVal : Int) (s s1 : State)
    (h : insert_item N (prodItem randVal) s = .ok (true, s1)) :
    producerHandler N arg0 randVal s
      = prepForLedSrv ⟨.green_e, prodItem randVal⟩
          (printMessage "ProducerID = %u; Produced Item = %u" arg0 (prodItem randVal) s1) := by
  simp [producerHandler, h, bind, Except.bind]

theorem producerHandler_failure (N : Nat) (arg0 randVal : Int) (s s1 : State)
    (h : insert_item N (prodItem randVal) s = .ok (false, s1)) :
    producerHandler N arg0 randVal s
      = .ok (printErrorMessage "ProducerID = %u:: Error, could not insert item!" arg0 s1) := by
  simp [producerHandler, h, bind, Except.bind, pure, Except.pure]

theorem consumerHandler_success (N : Nat) (arg0 consItem v : Int) (s s1 s2 : State)
    (h : remove_item N consItem s = .ok (true, v, s1))
    (h2 : prepForLedSrv ⟨.red_e, v⟩
      (printMessage "ConsumerID = %u; Removed Item = %u" arg0 v s1) = .ok s2) :
    consumerHandler N arg0 consItem s = .ok (v, s2) := by
  simp [consumerHandler, h, h2, bind, Except.bind, pure, Except.pure]

theorem consumerHandler_failure (N : Nat) (arg0 consItem v : Int) (s s1 : State)
    (h : remove_item N consItem s = .ok (false, v, s1)) :
    consumerHandler N arg0 consItem s
      = .ok (v, printErrorMessage "ConsumerID = %u:: Error, could not remove item!" arg0 s1) := by
  simp [consumerHandler, h, bind, Except.bind, pure, Except.pure]

theorem queueInv_in_slot {N : Nat} {s : State} {q : List Int} (h : QueueInv N s q)
    (hlt : q.length < N) : readBuf s.buffer s.in_ = some EMPTY_SLOT_IND := by
  have hin : s.in_.toNat = (s.out.toNat + q.length) % N := by
    rw [h.in_eq]; exact Int.toNat_ofNat _
  have hin0 : 0 ≤ s.in_ := by rw [h.in_eq]; exact Int.natCast_nonneg _
  simp only [readBuf, hin0, if_true]
  rw [hin, h.slots _ hlt]
  simp

theorem queueInv_out_slot {N : Nat} {s : State} {q : List Int} {v : Int}
    (h : QueueInv N s (v :: q)) : readBuf s.buffer s.out = some v := by
  have hoN : s.out.toNat < N := by have := h.out_lt; have := h.out_nonneg; omega
  have hle := h.le
  simp only [List.length_cons] at hle
  have := h.slots 0 (by omega)
  simp only [readBuf, h.out_nonneg, if_true]
  simpa [Nat.mod_eq_of_lt hoN] using this

theorem add_mod_surj {N o j : Nat} (ho : o < N) (hj : j < N) :
    ∃ i, i < N ∧ (o + i) % N = j := by
  by_cases h : o ≤ j
  · refine ⟨j - o, by omega, ?_⟩
    rw [Nat.add_sub_cancel' h, Nat.mod_eq_of_lt hj]
  · refine ⟨j + N - o, by omega, ?_⟩
    have : o + (j + N - o) = j + N := by omega
    rw [this, Nat.add_mod_right, Nat.mod_eq_of_lt hj]

theorem doCall_trace (N : Nat) (c : Call) (s : State) (x : Int) (st : Step)
    (h : doCall N c s x = .ok st) (hret : st.ret = true) :
    ∃ ops, st.after.trace = s.trace ++ ops ∧ ∀ e ∈ ops, e.isErrorDiagnostic = false := by
  cases c with
  | insert item =>
    rcases insert_item_result N item s with
      ⟨s', h', _, _, _, htr, _⟩ | ⟨s', h', _⟩ | ⟨h', _⟩ | ⟨h', _⟩ | ⟨h', _⟩
    · simp only [doCall, h'] at h
      cases h
      exact ⟨_, htr, by intro e he; simp [insertSuccessOps] at he; rcases he with
        rfl | rfl | rfl | rfl | rfl | rfl | rfl | rfl | rfl | rfl | rfl | rfl | rfl | rfl <;> rfl⟩
    · simp only [doCall, h'] at h
      cases h
      cases hret
    · simp [doCall, h'] at h
    · simp [doCall, h'] at h
    · simp [doCall, h'] at h
  | remove =>
    rcases remove_item_result N x s with
      ⟨v, s', h', _, _, _, _, htr, _⟩ | ⟨s', h', _⟩ | ⟨h', _⟩ | ⟨h', _⟩ | ⟨h', _⟩
    · simp only [doCall, h'] at h
      cases h
      exact ⟨_, htr, by intro e he; simp [removeSuccessOps] at he; rcases he with
        rfl | rfl | rfl | rfl | rfl | rfl | rfl | rfl | rfl | rfl | rfl | rfl | rfl | rfl
          | rfl | rfl <;> rfl⟩
    · simp only [doCall, h'] at h
      cases h
      cases hret
    · simp [doCall, h'] at h
    · simp [doCall, h'] at h
    · simp [doCall, h'] at h

theorem runCalls_trace (N : Nat) (calls : List Call) :
    ∀ (s : State) (x : Int) (steps : List Step), runCalls N calls s x = .ok steps →
      (∀ st ∈ steps, st.ret = true) →
      (∀ e ∈ s.trace, e.isErrorDiagnostic = false) →
      ∀ st ∈ steps, ∀ e ∈ st.after.trace, e.isErrorDiagnostic = false := by
  induction calls with
  | nil =>
    intro s x steps h _ _ st hst
    simp [runCalls] at h
    subst h
    cases hst
  | cons c cs ih =>
    intro s x steps h hret hs st hst
    simp only [runCalls] at h
    cases h1 : doCall N c s x with
    | error e => rw [h1] at h; cases h
    | ok st1 =>
      rw [h1] at h
      simp only at h
      cases h2 : runCalls N cs st1.after st1.x with
      | error e => rw [h2] at h; cases h
      | ok rest =>
        rw [h2] at h
        cases h
        obtain ⟨ops, htr, hops⟩ := doCall_trace N c s x st1 h1 (hret st1 (List.mem_cons_self _ _))
        have hclean1 : ∀ e ∈ st1.after.trace, e.isErrorDiagnostic = false := by
          intro e he
          rw [htr] at he
          rcases List.mem_append.1 he with he | he
          · exact hs e he
          · exact hops e he
        rcases List.mem_cons.1 hst with rfl | hst
        · exact hclean1
        · exact ih st1.after st1.x rest h2 (fun st' h' => hret st' (List.mem_cons_of_mem _ h'))
            hclean1 st hst

/-! ## Tasks -/

/-- C12. Request routing. In a round of producerHandler whose insert_item(v) returns
TRUE the request published is (green_e, v); in a round of consumerHandler whose
remove_item returns TRUE with value v the request published is (red_e, v); in both the
publish is the single prepForLedSrv of the round (the mailbox mutex being free).  When
insert_item or remove_item returns FALSE the round only logs one error diagnostic: the
environment of ledSrvTask and the doorbell are left as they were.  A round of
ledSrvTaskHandler that gets the doorbell calls ledToggle with blinksNum on GREEN when
led is green_e and on RED otherwise. -/
theorem request_routing (N : Nat) (arg0 randVal consItem : Int) (s : State) :
    (∀ s1, insert_item N (prodItem randVal) s = .ok (true, s1) →
      0 < s1.setLedEnvMutex.count →
      ∃ s2, producerHandler N arg0 randVal s = .ok s2 ∧
        s2.ledSrvTaskEnv = some ⟨.green_e, prodItem randVal⟩ ∧
        s2.trace = s1.trace ++
          [.Log_info2 "ProducerID = %u; Produced Item = %u" arg0 (prodItem randVal),
           .pend .setLedEnvMutex, .setEnv ⟨.green_e, prodItem randVal⟩,
           .post .ledSrvSchedSem, .post .setLedEnvMutex]) ∧
    (∀ s1, insert_item N (prodItem randVal) s = .ok (false, s1) →
      ∃ s2, producerHandler N arg0 randVal s = .ok s2 ∧
        s2.ledSrvTaskEnv = s.ledSrvTaskEnv ∧ s2.ledSrvSchedSem = s.ledSrvSchedSem ∧
        s2.trace = s1.trace ++
          [.Log_info1 "ProducerID = %u:: Error, could not insert item!" arg0]) ∧
    (∀ v s1, remove_item N consItem s = .ok (true, v, s1) →
      0 < s1.setLedEnvMutex.count →
      ∃ s2, consumerHandler N arg0 consItem s = .ok (v, s2) ∧
        s2.ledSrvTaskEnv = some ⟨.red_e, v⟩ ∧
        s2.trace = s1.trace ++
          [.Log_info2 "ConsumerID = %u; Removed Item = %u" arg0 v,
           .pend .setLedEnvMutex, .setEnv ⟨.red_e, v⟩,
           .post .ledSrvSchedSem, .post .setLedEnvMutex]) ∧
    (∀ v s1, remove_item N consItem s = .ok (false, v, s1) →
      ∃ s2, consumerHandler N arg0 consItem s = .ok (v, s2) ∧
        s2.ledSrvTaskEnv = s.ledSrvTaskEnv ∧ s2.ledSrvSchedSem = s.ledSrvSchedSem ∧
        s2.trace = s1.trace ++
          [.Log_info1 "ConsumerID = %u:: Error, could not remove item!" arg0]) ∧
    (∀ d info, Semaphore_pend s.ledSrvSchedSem = some d → s.ledSrvTaskEnv = some info →
      ledSrvTaskHandler s = .ok
        (ledToggle (if info.led = .green_e then GREEN else RED) info.blinksNum
          { s with
            ledSrvSchedSem := d
            trace := s.trace ++ [.pend .ledSrvSchedSem, .getEnv] })) := by
  refine ⟨?_, ?_, ?_, ?_, fun d info hd henv => ledSrvTaskHandler_eq s d info hd henv⟩
  · intro s1 h hmx
    obtain ⟨m, hm, _⟩ := pend_of_pos hmx
    rw [producerHandler_success N arg0 randVal s s1 h]
    refine ⟨_, prepForLedSrv_eq _ _ m (by simpa [printMessage, State.emit] using hm), rfl, ?_⟩
    simp [printMessage, State.emit]
  · intro s1 h
    rw [producerHandler_failure N arg0 randVal s s1 h]
    rcases insert_item_result N (prodItem randVal) s with
      ⟨s', h', _⟩ | ⟨s', h', _, _, _, hs'⟩ | ⟨h', _⟩ | ⟨h', _⟩ | ⟨h', _⟩
    · rw [h'] at h; cases h
    · rw [h'] at h; cases h
      refine ⟨_, rfl, ?_, ?_, rfl⟩ <;> rw [hs'] <;> rfl
    · rw [h'] at h; cases h
    · rw [h'] at h; cases h
    · rw [h'] at h; cases h
  · intro v s1 h hmx
    obtain ⟨m, hm, _⟩ := pend_of_pos hmx
    have h2 := prepForLedSrv_eq ⟨.red_e, v⟩
      (printMessage "ConsumerID = %u; Removed Item = %u" arg0 v s1) m
      (by simpa [printMessage, State.emit] using hm)
    refine ⟨_, consumerHandler_success N arg0 consItem v s s1 _ h h2, rfl, ?_⟩
    simp [printMessage, State.emit]
  · intro v s1 h
    rw [consumerHandler_failure N arg0 consItem v s s1 h]
    rcases remove_item_result N consItem s with
      ⟨v', s', h', _⟩ | ⟨s', h', _, _, _, hs'⟩ | ⟨h', _⟩ | ⟨h', _⟩ | ⟨h', _⟩
    · rw [h'] at h; cases h
    · rw [h'] at h; cases h
      refine ⟨_, rfl, ?_, ?_, rfl⟩ <;> rw [hs'] <;> rfl
    · rw [h'] at h; cases h
    · rw [h'] at h; cases h
    · rw [h'] at h; cases h

/-- C12 on a buffer of 10 slots: a producer round with rand() = 12 inserts 3 and leaves
(green_e, 3) in the mailbox; the consumer round that follows removes 3 and leaves
(red_e, 3); the service round after it toggles the red LED six times. -/
theorem request_routing_witness :
    ∃ s1 s2 s3, producerHandler BUFFER_SIZE 1 12 (main BUFFER_SIZE) = .ok s1 ∧
      s1.ledSrvTaskEnv = some ⟨.green_e, 3⟩ ∧
      consumerHandler BUFFER_SIZE 1 0 s1 = .ok (3, s2) ∧
      s2.ledSrvTaskEnv = some ⟨.red_e, 3⟩ ∧
      ledSrvTaskHandler s2 = .ok s3 ∧
      s3.trace.count (.toggle RED.1 RED.2) = 6 ∧
      s3.trace.count (.toggle GREEN.1 GREEN.2) = 0 := by
  obtain ⟨s1, h1, he1, _⟩ :=
    (request_routing BUFFER_SIZE 1 12 0 (main BUFFER_SIZE)).1 _ rfl (by decide)
  cases h1
  exact ⟨_, _, _, rfl, he1, rfl, rfl, rfl, by decide, by decide⟩

/-! ## Initialisation of the buffer -/

/-- C14. For every array arr and every size not above its length, initArray(arr, size)
returns (the loop runs size times), keeps the length, leaves EMPTY_SLOT_IND in every
cell below size and every cell from size on unchanged; for size <= 0 it changes
nothing.  With the initial values of the globals the state main() leaves behind has all
BUFFER_SIZE slots EMPTY_SLOT_IND, in = out = 0 and count = 0. -/
theorem initArray_spec (arr : List Int) (size : Int) (N : Nat)
    (hlen : size ≤ arr.length) :
    (initArray arr size).length = arr.length ∧
      (∀ i : Nat, (i : Int) < size → (initArray arr size)[i]? = some EMPTY_SLOT_IND) ∧
      (∀ i : Nat, size ≤ i → (initArray arr size)[i]? = arr[i]?) ∧
      (size ≤ 0 → initArray arr size = arr) ∧
      (main N).buffer = List.replicate N EMPTY_SLOT_IND ∧
      (main N).buffer = initArray (List.replicate N 0) N ∧
      (main N).in_ = 0 ∧ (main N).out = 0 ∧ (main N).count = 0 := by
  have hle : size.toNat ≤ arr.length := by omega
  have heq : initArray arr size
      = List.replicate size.toNat EMPTY_SLOT_IND ++ arr.drop size.toNat :=
    initArrayLoop_eq _ _ hle
  refine ⟨?_, ?_, ?_, ?_, ?_, ?_, ?_, ?_, ?_⟩
  · rw [heq]; simp; omega
  · intro i hi
    rw [heq, List.getElem?_append_left (by simp; omega)]
    rw [List.getElem?_replicate]
    simp; omega
  · intro i hi
    rw [heq, List.getElem?_append_right (by simp; omega)]
    simp only [List.length_replicate, List.getElem?_drop]
    congr 1; omega
  · intro h0
    have : size.toNat = 0 := by omega
    rw [heq, this]; simp
  · rw [main_eq]
  · rw [main_eq]
    show _ = initArrayLoop _ _
    rw [initArrayLoop_eq _ _ (by simp)]
    simp
  · rw [main_eq]
  · rw [main_eq]
  · rw [main_eq]

/-- C14 on an array of five cells and size 3: the first three cells become
EMPTY_SLOT_IND, the last two keep 8 and 9. -/
theorem initArray_spec_witness :
    initArray [5, 6, 7, 8, 9] 3 = [-1, -1, -1, 8, 9] ∧
      (initArray [5, 6, 7, 8, 9] 3).length = 5 ∧
      (initArray [5, 6, 7, 8, 9] 3)[4]? = some 9 ∧
      (main BUFFER_SIZE).buffer = List.replicate BUFFER_SIZE EMPTY_SLOT_IND :=
  have h := initArray_spec [5, 6, 7, 8, 9] 3 BUFFER_SIZE (by decide)
  ⟨rfl, h.1, (h.2.2.1 4 (by decide)).trans rfl, h.2.2.2.2.1⟩

/-! ## Protocol invariants and operation order -/

/-- C15. The consistency-error branches are unreachable under the protocol: in the state
main() leaves behind and after every call of a sequence of insert_item / remove_item
calls with items other than EMPTY_SLOT_IND run to completion from it, buffer[in] is
EMPTY_SLOT_IND whenever an emptySlots permit is available and buffer[out] is not
EMPTY_SLOT_IND whenever a fullSlots permit is available; every call returns TRUE and no
error diagnostic is in the trace; the only way a sequence does not run to completion is
a call that finds no permit on its counting semaphore. -/
theorem consistency_errors_unreachable (N : Nat) (hN : 0 < N) (hmax : (N : Int) ≤ INT_MAX)
    (calls : List Call) (x : Int)
    (hitems : ∀ item, Call.insert item ∈ calls → item ≠ EMPTY_SLOT_IND) :
    (∀ steps, runCalls N calls (main N) x = .ok steps →
      (∀ s ∈ main N :: steps.map (fun st => st.after),
        (0 < s.emptySlots.count → readBuf s.buffer s.in_ = some EMPTY_SLOT_IND) ∧
        (0 < s.fullSlots.count →
          ∃ v, readBuf s.buffer s.out = some v ∧ v ≠ EMPTY_SLOT_IND)) ∧
      (∀ st ∈ steps, st.ret = true ∧
        ∀ e ∈ st.after.trace, e.isErrorDiagnostic = false)) ∧
    (∀ e, runCalls N calls (main N) x = .error e →
      e = .blocked .emptySlots ∨ e = .blocked .fullSlots) := by
  have key : ∀ (s : State) (q : List Int), QueueInv N s q →
      (∀ v ∈ q, v ≠ EMPTY_SLOT_IND) →
      (0 < s.emptySlots.count → readBuf s.buffer s.in_ = some EMPTY_SLOT_IND) ∧
      (0 < s.fullSlots.count →
        ∃ v, readBuf s.buffer s.out = some v ∧ v ≠ EMPTY_SLOT_IND) := by
    intro s q h hq
    have hle := h.le
    constructor
    · intro hpos
      rw [h.empty] at hpos
      simp only [Semaphore.count] at hpos
      exact queueInv_in_slot h (by omega)
    · intro hpos
      rw [h.full] at hpos
      simp only [Semaphore.count] at hpos
      cases q with
      | nil => simp at hpos
      | cons v q' => exact ⟨v, queueInv_out_slot h, hq v (List.mem_cons_self _ _)⟩
  rcases queueInv_runCalls hmax calls (main N) x [] (queueInv_main N hN) with
    ⟨steps, q', hrun, _, hall⟩ | hb | hb
  · rw [hrun]
    refine ⟨fun steps' h => ?_, fun e h => by cases h⟩
    cases h
    have hret : ∀ st ∈ steps, st.ret = true := by
      intro st hst
      by_contra hr
      rcases (hall st hst).2 (by simpa using hr) with h1 | h1
      · cases h1
      · exact hitems _ h1 rfl
    refine ⟨?_, fun st hst => ⟨hret st hst, ?_⟩⟩
    · intro s hs
      rcases List.mem_cons.1 hs with rfl | hs
      · exact key _ [] (queueInv_main N hN) (fun v hv => by cases hv)
      · obtain ⟨st, hst, rfl⟩ := List.mem_map.1 hs
        obtain ⟨⟨q, hinv, hmem⟩, _⟩ := hall st hst
        refine key _ q hinv (fun v hv => ?_)
        rcases hmem v hv with h1 | h1
        · cases h1
        · exact hitems v h1
    · exact runCalls_trace N calls (main N) x steps hrun hret
        (by rw [main_eq]; intro e he; cases he) st hst
  · rw [hb]
    exact ⟨fun _ h => (by cases h), fun e h => (by cases h; exact Or.inl rfl)⟩
  · rw [hb]
    exact ⟨fun _ h => (by cases h), fun e h => (by cases h; exact Or.inr rfl)⟩

/-- C15 with BUFFER_SIZE = 10: inserts of 3, 7, 1 followed by three removes all return
TRUE and leave no error diagnostic in the trace. -/
theorem consistency_errors_unreachable_witness :
    ∃ steps, runCalls BUFFER_SIZE
        [.insert 3, .insert 7, .insert 1, .remove, .remove, .remove]
        (main BUFFER_SIZE) 0 = .ok steps ∧
      steps.map (fun st => st.ret) = [true, true, true, true, true, true] ∧
      ∀ st ∈ steps, st.ret = true ∧ ∀ e ∈ st.after.trace, e.isErrorDiagnostic = false :=
  ⟨_, rfl, rfl,
    ((consistency_errors_unreachable BUFFER_SIZE (by decide) (by decide)
      [.insert 3, .insert 7, .insert 1, .remove, .remove, .remove] 0 (by
        intro item hi
        have h3 : item = 3 ∨ item = 7 ∨ item = 1 := by simpa using hi
        rcases h3 with rfl | rfl | rfl <;> decide)).1 _ rfl).2⟩

/-- C16. Locking discipline as an operation order, for every state.  The operations of
a completed insert_item are: pend(emptySlots), pend(mutex), then only accesses to the
shared variables and one diagnostic, then post(mutex), then post(fullSlots) when it
returns TRUE and post(emptySlots) when it returns FALSE.  A completed remove_item does
the same with pend(fullSlots) first and post(emptySlots) on TRUE, post(fullSlots) on
FALSE.  So every access lies between pend(mutex) and post(mutex), the mutex is pended
exactly once and posted exactly once, and the counting semaphore is acquired before the
mutex: a call that waits on the mutex has already got its counting permit. -/
theorem locking_discipline (N : Nat) (item x : Int) (s : State) :
    (∀ b s', insert_item N item s = .ok (b, s') →
      ∃ ops, s'.trace = s.trace ++ ops ∧
        Disciplined .emptySlots (if b then .fullSlots else .emptySlots) ops ∧
        ops.count (.pend .mutex) = 1 ∧ ops.count (.post .mutex) = 1 ∧
        ops = (if b then insertSuccessOps item s'.count else insertFailureOps item)) ∧
    (∀ b v s', remove_item N x s = .ok (b, v, s') →
      ∃ ops, s'.trace = s.trace ++ ops ∧
        Disciplined .fullSlots (if b then .emptySlots else .fullSlots) ops ∧
        ops.count (.pend .mutex) = 1 ∧ ops.count (.post .mutex) = 1 ∧
        ops = (if b then removeSuccessOps v s'.count else removeFailureOps x)) ∧
    (insert_item N item s = .error (.blocked .mutex) → 0 < s.emptySlots.count) ∧
    (remove_item N x s = .error (.blocked .mutex) → 0 < s.fullSlots.count) ∧
    (∀ h, insert_item N item s = .error (.blocked h) → h = .emptySlots ∨ h = .mutex) ∧
    (∀ h, remove_item N x s = .error (.blocked h) → h = .fullSlots ∨ h = .mutex) := by
  refine ⟨?_, ?_, ?_, ?_, ?_, ?_⟩
  · intro b s' h
    rcases insert_item_result N item s with
      ⟨s1, h1, _, _, _, htr, _⟩ | ⟨s1, h1, _, _, _, hs1⟩ | ⟨h1, _⟩ | ⟨h1, _⟩ | ⟨h1, _⟩
    · rw [h1] at h; cases h
      refine ⟨_, htr, ⟨[.read .in_, .read .buffer, .read .count, .write .count, .read .in_,
        .write .buffer, .read .in_, .write .in_, .read .count,
        .Log_info2 "Produced item value = %u; Count = %u" item s'.count], rfl, ?_⟩, ?_, ?_,
        rfl⟩
      · intro e he
        simp at he
        rcases he with rfl | rfl | rfl | rfl | rfl | rfl | rfl | rfl | rfl | rfl <;> rfl
      · simp [insertSuccessOps, List.count_cons]
      · simp [insertSuccessOps, List.count_cons]
    · rw [h1] at h; cases h
      refine ⟨insertFailureOps item, by rw [hs1], ⟨[.read .in_, .read .buffer,
        .Log_info1 "insert_item:: Error, could not insert item %u!" item], rfl, ?_⟩, ?_, ?_,
        rfl⟩
      · intro e he
        simp at he
        rcases he with rfl | rfl | rfl <;> rfl
      · simp [insertFailureOps, List.count_cons]
      · simp [insertFailureOps, List.count_cons]
    · rw [h1] at h; cases h
    · rw [h1] at h; cases h
    · rw [h1] at h; cases h
  · intro b v s' h
    rcases remove_item_result N x s with
      ⟨v1, s1, h1, _, _, _, _, htr, _⟩ | ⟨s1, h1, _, _, _, hs1⟩ | ⟨h1, _⟩ | ⟨h1, _⟩ | ⟨h1, _⟩
    · rw [h1] at h; cases h
      refine ⟨_, htr, ⟨[.read .out, .read .buffer, .read .count, .write .count, .read .out,
        .read .buffer, .read .out, .write .buffer, .read .out, .write .out, .read .count,
        .Log_info2 "Consumed item value = %u; Count = %u" v s'.count], rfl, ?_⟩, ?_, ?_,
        rfl⟩
      · intro e he
        simp at he
        rcases he with rfl | rfl | rfl | rfl | rfl | rfl | rfl | rfl | rfl | rfl | rfl | rfl
          <;> rfl
      · simp [removeSuccessOps, List.count_cons]
      · simp [removeSuccessOps, List.count_cons]
    · rw [h1] at h; cases h
      refine ⟨removeFailureOps x, by rw [hs1], ⟨[.read .out, .read .buffer,
        .Log_info1 "remove_item:: Error, could not consume item %u!" x], rfl, ?_⟩, ?_, ?_,
        rfl⟩
      · intro e he
        simp at he
        rcases he with rfl | rfl | rfl <;> rfl
      · simp [removeFailureOps, List.count_cons]
      · simp [removeFailureOps, List.count_cons]
    · rw [h1] at h; cases h
    · rw [h1] at h; cases h
    · rw [h1] at h; cases h
  · intro h
    rcases insert_item_result N item s with
      ⟨s1, h1, _⟩ | ⟨s1, h1, _⟩ | ⟨h1, _⟩ | ⟨h1, hp, _⟩ | ⟨h1, _⟩
    · rw [h1] at h; cases h
    · rw [h1] at h; cases h
    · rw [h1] at h; cases h
    · exact hp
    · rw [h1] at h; cases h
  · intro h
    rcases remove_item_result N x s with
      ⟨v1, s1, h1, _⟩ | ⟨s1, h1, _⟩ | ⟨h1, _⟩ | ⟨h1, hp, _⟩ | ⟨h1, _⟩
    · rw [h1] at h; cases h
    · rw [h1] at h; cases h
    · rw [h1] at h; cases h
    · exact hp
    · rw [h1] at h; cases h
  · intro hd h
    rcases insert_item_result N item s with
      ⟨s1, h1, _⟩ | ⟨s1, h1, _⟩ | ⟨h1, _⟩ | ⟨h1, _⟩ | ⟨h1, _⟩
    · rw [h1] at h; cases h
    · rw [h1] at h; cases h
    · rw [h1] at h; cases h; exact Or.inl rfl
    · rw [h1] at h; cases h; exact Or.inr rfl
    · rw [h1] at h; cases h
  · intro hd h
    rcases remove_item_result N x s with
      ⟨v1, s1, h1, _⟩ | ⟨s1, h1, _⟩ | ⟨h1, _⟩ | ⟨h1, _⟩ | ⟨h1, _⟩
    · rw [h1] at h; cases h
    · rw [h1] at h; cases h
    · rw [h1] at h; cases h; exact Or.inl rfl
    · rw [h1] at h; cases h; exact Or.inr rfl
    · rw [h1] at h; cases h

/-- C16 on the initial state of a buffer of 10 slots: insert_item(3) performs the
operations of a successful insert with count 1, in the order of the discipline. -/
theorem locking_discipline_witness :
    ∃ s', insert_item BUFFER_SIZE 3 (main BUFFER_SIZE) = .ok (true, s') ∧
      s'.trace = insertSuccessOps 3 1 ∧
      Disciplined .emptySlots .fullSlots s'.trace ∧
      s'.trace.count (.pend .mutex) = 1 ∧ s'.trace.count (.post .mutex) = 1 := by
  obtain ⟨ops, htr, hd, h1, h2, hops⟩ :=
    (locking_discipline BUFFER_SIZE 3 0 (main BUFFER_SIZE)).1 true _ rfl
  have hnil : (main BUFFER_SIZE).trace = [] := rfl
  rw [hnil, List.nil_append] at htr
  refine ⟨_, rfl, ?_, ?_, ?_, ?_⟩
  · rw [htr, hops]; rfl
  · rw [htr]; exact hd
  · rw [htr]; exact h1
  · rw [htr]; exact h2

/-- C17. Cursor and window invariant: in the state main() leaves behind and after every
call of a sequence of insert_item / remove_item calls with items other than
EMPTY_SLOT_IND run to completion from it, 0 <= in < BUFFER_SIZE, 0 <= out < BUFFER_SIZE,
in == (out + count) mod BUFFER_SIZE, the buffer has BUFFER_SIZE slots, and slot j differs
from EMPTY_SLOT_IND exactly when j is (out + i) mod BUFFER_SIZE for some i < count, with
0 <= count <= BUFFER_SIZE; the only way a sequence does not run to completion is a call
that finds no permit on its counting semaphore. -/
theorem cursor_window_invariant (N : Nat) (hN : 0 < N) (hmax : (N : Int) ≤ INT_MAX)
    (calls : List Call) (x : Int)
    (hitems : ∀ item, Call.insert item ∈ calls → item ≠ EMPTY_SLOT_IND) :
    (∀ steps, runCalls N calls (main N) x = .ok steps →
      ∀ s ∈ main N :: steps.map (fun st => st.after),
        0 ≤ s.in_ ∧ s.in_ < N ∧ 0 ≤ s.out ∧ s.out < N ∧
        s.in_ = (s.out + s.count) % N ∧
        s.buffer.length = N ∧ 0 ≤ s.count ∧ s.count ≤ N ∧
        ∀ j : Nat, j < N →
          ((∃ v, s.buffer[j]? = some v ∧ v ≠ EMPTY_SLOT_IND) ↔
            ∃ i : Nat, (i : Int) < s.count ∧ j = (s.out.toNat + i) % N)) ∧
    (∀ e, runCalls N calls (main N) x = .error e →
      e = .blocked .emptySlots ∨ e = .blocked .fullSlots) := by
  have key : ∀ (s : State) (q : List Int), QueueInv N s q →
      (∀ v ∈ q, v ≠ EMPTY_SLOT_IND) →
      0 ≤ s.in_ ∧ s.in_ < N ∧ 0 ≤ s.out ∧ s.out < N ∧
      s.in_ = (s.out + s.count) % N ∧
      s.buffer.length = N ∧ 0 ≤ s.count ∧ s.count ≤ N ∧
      ∀ j : Nat, j < N →
        ((∃ v, s.buffer[j]? = some v ∧ v ≠ EMPTY_SLOT_IND) ↔
          ∃ i : Nat, (i : Int) < s.count ∧ j = (s.out.toNat + i) % N) := by
    intro s q h hq
    have ho : ((s.out.toNat : Nat) : Int) = s.out := Int.toNat_of_nonneg h.out_nonneg
    have hoN : s.out.toNat < N := by have := h.out_lt; omega
    have hle := h.le
    have hin : s.in_ = (((s.out.toNat + q.length) % N : Nat) : Int) := h.in_eq
    refine ⟨?_, ?_, h.out_nonneg, h.out_lt, ?_, h.len, ?_, ?_, ?_⟩
    · rw [hin]; exact Int.natCast_nonneg _
    · rw [hin]; exact_mod_cast Nat.mod_lt _ hN
    · rw [hin, h.count_eq, ← ho]
      push_cast
      rfl
    · rw [h.count_eq]; exact Int.natCast_nonneg _
    · rw [h.count_eq]; exact_mod_cast hle
    · intro j hj
      obtain ⟨i, hi, hij⟩ := add_mod_surj hoN hj
      have hslot := h.slots i hi
      rw [hij] at hslot
      rw [h.count_eq]
      constructor
      · rintro ⟨v, hv, hne⟩
        rw [hslot] at hv
        have hv' : q[i]?.getD EMPTY_SLOT_IND = v := by simpa using hv
        refine ⟨i, ?_, hij.symm⟩
        by_contra hge
        have hge' : q.length ≤ i := by
          have : ¬ i < q.length := fun hlt => hge (by exact_mod_cast hlt)
          omega
        rw [List.getElem?_eq_none hge'] at hv'
        exact hne hv'.symm
      · rintro ⟨i', hi', hji'⟩
        have hi'q : i' < q.length := by exact_mod_cast hi'
        have heq : i = i' := add_mod_inj hi (by omega) (by rw [hij, hji'])
        subst heq
        refine ⟨q[i], ?_, hq _ (List.getElem_mem _)⟩
        rw [hslot, List.getElem?_eq_getElem hi'q]
        rfl
  rcases queueInv_runCalls hmax calls (main N) x [] (queueInv_main N hN) with
    ⟨steps, q', hrun, _, hall⟩ | hb | hb
  · rw [hrun]
    refine ⟨fun steps' h => ?_, fun e h => by cases h⟩
    cases h
    intro s hs
    rcases List.mem_cons.1 hs with rfl | hs
    · exact key _ [] (queueInv_main N hN) (fun v hv => by cases hv)
    · obtain ⟨st, hst, rfl⟩ := List.mem_map.1 hs
      obtain ⟨⟨q, hinv, hmem⟩, _⟩ := hall st hst
      refine key _ q hinv (fun v hv => ?_)
      rcases hmem v hv with h1 | h1
      · cases h1
      · exact hitems v h1
  · rw [hb]
    exact ⟨fun _ h => (by cases h), fun e h => (by cases h; exact Or.inl rfl)⟩
  · rw [hb]
    exact ⟨fun _ h => (by cases h), fun e h => (by cases h; exact Or.inr rfl)⟩

/-- C17 with BUFFER_SIZE = 2: after insert 5, insert 9, remove, insert 4 the cursors are
in = 1 and out = 1 with count 2, and both slots are occupied. -/
theorem cursor_window_invariant_witness :
    ∃ steps, runCalls 2 [.insert 5, .insert 9, .remove, .insert 4] (main 2) 0 = .ok steps ∧
      steps.map (fun st => (st.after.in_, st.after.out, st.after.count, st.after.buffer))
        = [(1, 0, 1, [5, -1]), (0, 0, 2, [5, 9]), (0, 1, 1, [-1, 9]), (1, 1, 2, [4, 9])] ∧
      ∀ s ∈ main 2 :: steps.map (fun st => st.after),
        0 ≤ s.in_ ∧ s.in_ < (2 : Nat) ∧ 0 ≤ s.out ∧ s.out < (2 : Nat) ∧
        s.in_ = (s.out + s.count) % (2 : Nat) :=
  ⟨_, rfl, rfl, fun s hs =>
    have h := (cursor_window_invariant 2 (by decide) (by decide)
      [.insert 5, .insert 9, .remove, .insert 4] 0 (by
        intro item hi
        have h3 : item = 5 ∨ item = 9 ∨ item = 4 := by simpa using hi
        rcases h3 with rfl | rfl | rfl <;> decide)).1 _ rfl s hs
    ⟨h.1, h.2.1, h.2.2.1, h.2.2.2.1, h.2.2.2.2.1⟩⟩

end ProducerConsumer
